import Mathlib

/-!
# go-mermaid: state diagrams, the ID generator, flowcharts and block diagrams

A shallow embedding of `diagrams/state/diagram.go`, of the ID generator declared in
`diagrams/flowchart/diagram_test.go` and of the flowchart and block builders those tests
exercise, with the properties of the specification proved about them.

Conventions of the embedding.

* Go strings are Lean strings; `strings.Builder` is a record holding the text written so far.
* A Go slice `[]*T` is a `List T`; `append(xs, x)` is `xs ++ [x]`.
* A method with a pointer receiver that assigns to its receiver returns the updated receiver
  next to its result.
* `uint64` is a natural number below `2 ^ 64`; arithmetic on it is taken modulo `2 ^ 64`.
* Types and functions that `diagram.go` uses but that are declared in other files of the
  repository (`State`, `Transition`, `NewState`, `NewTransition`, the two `String(indent)`
  methods and the base diagram shell) are parameters of the definitions that use them.
* The flowchart and block packages are present through their tests only. Their types and
  builder methods are modelled from the specification and from what the tests observe, each
  such definition saying so; the ID generator of a flowchart is the incrementing `uint64`
  counter of `MockIDGenerator`.
-/

namespace Mermaid

/-- Go's `string` type. -/
abbrev string : Type := String

/-- The concatenation of a list of texts, in list order. -/
def concatAll : List string → string
  | [] => ""
  | x :: xs => x ++ concatAll xs

/-! ## Go library pieces used by the sources -/

namespace strings

/-- Go's `strings.Builder`: the text accumulated so far. -/
structure Builder where
  buf : string
  deriving DecidableEq, Repr

/-- The zero value `var sb strings.Builder`. -/
def Builder.new : Builder := ⟨""⟩

/-- The call `sb.WriteString(s)`: appends `s` to the accumulated text. -/
def Builder.WriteString (sb : Builder) (s : string) : Builder := ⟨sb.buf ++ s⟩

/-- The call `sb.String()`: the accumulated text. -/
def Builder.String (sb : Builder) : string := sb.buf

/-- Go's `strings.Contains(s, substr)`: `substr` occurs in `s` as a contiguous run. -/
def Contains (s substr : string) : Prop := substr.data <:+: s.data

instance instDecidableContains (s substr : string) : Decidable (Contains s substr) :=
  inferInstanceAs (Decidable (substr.data <:+: s.data))

end strings

/-! ## Package `state` (`diagrams/state/diagram.go`) -/

namespace state

/-- The constant `baseDiagramType`. -/
def baseDiagramType : string := "stateDiagram-v2\n"

/-- The struct `Diagram`. `Base` stands for the embedded
`basediagram.BaseDiagram[StateConfigurationProperties]`, `State` and `Transition` for the
handles `*State` and `*Transition` (the nil handle included). -/
structure Diagram (Base State Transition : Type) where
  BaseDiagram : Base
  States : List State
  Transitions : List Transition
  deriving DecidableEq, Repr

section
variable {Base State Transition StateType : Type}

/-- The constructor `NewDiagram()`; `newBase` is the value of
`basediagram.NewBaseDiagram(NewStateConfigurationProperties())`. -/
def NewDiagram (newBase : Base) : Diagram Base State Transition :=
  { BaseDiagram := newBase, States := [], Transitions := [] }

/-- The method `AddState(id, description, stateType)`: the returned state and the diagram
afterwards. -/
def Diagram.AddState (NewState : string → string → StateType → State)
    (d : Diagram Base State Transition) (id description : string) (stateType : StateType) :
    State × Diagram Base State Transition :=
  let state := NewState id description stateType
  (state, { d with States := d.States ++ [state] })

/-- The method `AddTransition(from, to, description)`: the returned transition and the diagram
afterwards. -/
def Diagram.AddTransition (NewTransition : State → State → string → Transition)
    (d : Diagram Base State Transition) (src dst : State) (description : string) :
    Transition × Diagram Base State Transition :=
  let transition := NewTransition src dst description
  (transition, { d with Transitions := d.Transitions ++ [transition] })

/-- The method `String()`. `shell` is `BaseDiagram.String`, `stateString` and
`transitionString` are `(*State).String` and `(*Transition).String`. -/
def Diagram.String (shell : Base → string → string)
    (stateString : State → string → string)
    (transitionString : Transition → string → string)
    (d : Diagram Base State Transition) : string :=
  let sb := strings.Builder.new
  let sb := sb.WriteString baseDiagramType
  let sb := d.States.foldl (fun sb state => sb.WriteString (stateString state "")) sb
  let sb := d.Transitions.foldl
    (fun sb transition => sb.WriteString (transitionString transition "")) sb
  shell d.BaseDiagram sb.String

/-- The method `String()` with the effects of the methods it calls made explicit: each callee
has a pointer to its receiver, so it is given as a function returning its text together with
the receiver as the call leaves it, and `String()` returns its text together with the diagram
as the call leaves it. -/
def Diagram.StringM (shellM : Base → string → string × Base)
    (stateStringM : State → string → string × State)
    (transitionStringM : Transition → string → string × Transition)
    (d : Diagram Base State Transition) : string × Diagram Base State Transition :=
  let sb := strings.Builder.new
  let sb := sb.WriteString baseDiagramType
  let r := d.States.foldl
    (fun (acc : strings.Builder × List State) state =>
      let out := stateStringM state ""
      (acc.1.WriteString out.1, acc.2 ++ [out.2])) (sb, [])
  let q := d.Transitions.foldl
    (fun (acc : strings.Builder × List Transition) transition =>
      let out := transitionStringM transition ""
      (acc.1.WriteString out.1, acc.2 ++ [out.2])) (r.1, [])
  let res := shellM d.BaseDiagram q.1.String
  (res.1, { BaseDiagram := res.2, States := r.2, Transitions := q.2 })

/-- Modelled from the spec: the method `(*State).String(indent)` (outside the sources) taken as
a call with its effect. By sections 2, 4.2 and 5 of the spec it is a serialization: it returns
the text of the entity, the same text for the same entity and indentation, and leaves the
entity as it found it. The text is the parameter `stateString`. -/
def stateStringCall (stateString : State → string → string) (s : State) (indent : string) :
    string × State :=
  (stateString s indent, s)

/-- Modelled from the spec: the method `(*Transition).String(indent)` (outside the sources)
taken as a call with its effect; a serialization as for states. The text is the parameter
`transitionString`. -/
def transitionStringCall (transitionString : Transition → string → string) (t : Transition)
    (indent : string) : string × Transition :=
  (transitionString t indent, t)

/-- Modelled from the spec: the method `BaseDiagram.String(body)` (outside the sources) taken as
a call with its effect. By sections 4.4 and 5 of the spec it returns a text determined by the
configuration and the body and changes nothing. The text is the parameter `shell`. -/
def shellCall (shell : Base → string → string) (b : Base) (body : string) : string × Base :=
  (shell b body, b)

/-- A run of `AddState` calls, one per argument triple `(id, description, stateType)`, in list
order; the diagram afterwards. -/
def addStates (NewState : string → string → StateType → State)
    (d : Diagram Base State Transition) (calls : List (string × string × StateType)) :
    Diagram Base State Transition :=
  calls.foldl (fun d c => (d.AddState NewState c.1 c.2.1 c.2.2).2) d

end

end state

/-! ## Go built-ins used by the flowchart package -/

namespace strconv

/-- Go's `strconv.FormatUint(n, 10)`: the decimal rendering of an unsigned integer. -/
def FormatUint (n : Nat) : string := Nat.repr n

end strconv

/-- Go's built-in `a < b` on strings: lexicographic order on the encoded text, a proper prefix
coming first. -/
def stringLessData : List Char → List Char → Bool
  | [], [] => false
  | [], _ :: _ => true
  | _ :: _, [] => false
  | a :: as, b :: bs =>
    if a.toNat < b.toNat then true
    else if b.toNat < a.toNat then false
    else stringLessData as bs

/-- Go's built-in `a < b` on strings. -/
def stringLess (a b : string) : Bool := stringLessData a.data b.data

/-- Go's built-in `a <= b` on strings. -/
def stringLessEq (a b : string) : Bool := !stringLess b a

/-- The characters that render a decimal digit. -/
def IsDigitChar (c : Char) : Prop := ∃ d, d < 10 ∧ c = Nat.digitChar d

/-- The value of a decimal digit character. -/
def digitValue (c : Char) : Nat := c.toNat - 48

/-- The number a run of decimal digits denotes, most significant digit first, continuing from
the value `acc` of the digits read so far. -/
def decimalValueFrom (acc : Nat) : List Char → Nat
  | [] => acc
  | c :: cs => decimalValueFrom (10 * acc + digitValue c) cs

/-- The number a decimal string denotes. -/
def decimalValue (s : string) : Nat := decimalValueFrom 0 s.data

/-! ## Package `flowchart` (`diagrams/flowchart/diagram_test.go` and the spec) -/

namespace flowchart

/-- The struct `MockIDGenerator`; `currentID` is a `uint64`. -/
structure MockIDGenerator where
  currentID : Nat
  deriving DecidableEq, Repr

/-- The values of `MockIDGenerator` that exist in Go: the counter fits in 64 bits. -/
def MockIDGenerator.valid (m : MockIDGenerator) : Prop := m.currentID < 2 ^ 64

instance instDecidableValid (m : MockIDGenerator) : Decidable m.valid :=
  inferInstanceAs (Decidable (m.currentID < 2 ^ 64))

/-- The zero value `MockIDGenerator{}`: a fresh generator, counter 0. -/
def MockIDGenerator.zero : MockIDGenerator := { currentID := 0 }

/-- The method `NextID()`: the returned ID and the generator afterwards; `m.currentID++` is an
increment of a `uint64`. -/
def MockIDGenerator.NextID (m : MockIDGenerator) : Nat × MockIDGenerator :=
  let current := m.currentID
  (current, { currentID := (m.currentID + 1) % 2 ^ 64 })

/-- The generator after `k` successive `NextID()` calls. -/
def MockIDGenerator.afterCalls (m : MockIDGenerator) : Nat → MockIDGenerator
  | 0 => m
  | k + 1 => (m.afterCalls k).NextID.2

/-- The result of the `k`-th `NextID()` call, counting from 0. -/
def MockIDGenerator.kthResult (m : MockIDGenerator) (k : Nat) : Nat :=
  (m.afterCalls k).NextID.1

/-- Modelled from the spec: the type `nodeShape` (declared outside the sources); a shape is the
token it is rendered as. -/
abbrev nodeShape : Type := string

/-- Modelled from the spec: the constant `NodeShapeProcess`, the default (process, rectangle)
shape, rendered as `rect`. -/
def NodeShapeProcess : nodeShape := "rect"

/-- Modelled from the spec: the struct `Node` (declared outside the sources), with the fields
the tests read: the ID as a decimal string, the text label and the shape. -/
structure Node where
  ID : string
  Text : string
  Shape : nodeShape
  deriving DecidableEq, Repr

/-- Modelled from the spec: the enumeration `linkShape` (declared outside the sources), the
closed set of line styles. -/
inductive linkShape where
  | LinkShapeOpen
  | LinkShapeDotted
  | LinkShapeThick
  | LinkShapeInvisible
  deriving DecidableEq, Repr

/-- Modelled from the spec: the enumeration `linkArrowType` (declared outside the sources), the
closed set of arrow kinds. -/
inductive linkArrowType where
  | LinkArrowTypeNone
  | LinkArrowTypeArrow
  | LinkArrowTypeLeftArrow
  | LinkArrowTypeBullet
  | LinkArrowTypeCross
  deriving DecidableEq, Repr

/-- Modelled from the spec: the struct `Link` (declared outside the sources), with the fields
the tests read; `From` and `To` are node handles, nil allowed. -/
structure Link where
  From : Option Node
  To : Option Node
  Shape : linkShape
  Head : linkArrowType
  Tail : linkArrowType
  Length : Int
  Text : string
  deriving DecidableEq, Repr

/-- Modelled from the spec: the struct `Subgraph` (declared outside the sources): the ID as a
decimal string and the title. -/
structure Subgraph where
  ID : string
  Title : string
  deriving DecidableEq, Repr

/-- Modelled from the spec: the struct `Class` (declared outside the sources): a style class,
identified by its name. -/
structure Class where
  Name : string
  deriving DecidableEq, Repr

/-- Modelled from the spec: the enumeration `flowchartDirection` (declared outside the
sources). -/
inductive flowchartDirection where
  | FlowchartDirectionTopToBottom
  | FlowchartDirectionLeftRight
  | FlowchartDirectionRightLeft
  | FlowchartDirectionBottomUp
  deriving DecidableEq, Repr

/-- Modelled from the spec: the two-letter direction code of the header line (section 4.3,
step 1). -/
def flowchartDirection.code : flowchartDirection → string
  | FlowchartDirectionTopToBottom => "TB"
  | FlowchartDirectionLeftRight => "LR"
  | FlowchartDirectionRightLeft => "RL"
  | FlowchartDirectionBottomUp => "BT"

/-- Modelled from the spec: the struct `Flowchart` (declared outside the sources), with the
fields `TestNewFlowchart` lists that the rendering algorithm of section 4.3 uses. `Base` stands
for the embedded base diagram; the ID generator is the incrementing `uint64` counter that
`MockIDGenerator` implements. -/
structure Flowchart (Base : Type) where
  BaseDiagram : Base
  Direction : flowchartDirection
  classes : List Class
  nodes : List Node
  subgraphs : List Subgraph
  links : List Link
  idGenerator : MockIDGenerator
  deriving DecidableEq, Repr

/-- Modelled from the spec: the constructor `NewNode` (outside the sources): the allocated ID
stringified as decimal, the given text, the process shape. -/
def NewNode (id : Nat) (text : string) : Node :=
  { ID := strconv.FormatUint id, Text := text, Shape := NodeShapeProcess }

/-- Modelled from the spec: the constructor `NewSubgraph` (outside the sources): the allocated
ID stringified as decimal, and the title. -/
def NewSubgraph (id : Nat) (title : string) : Subgraph :=
  { ID := strconv.FormatUint id, Title := title }

/-- Modelled from the spec: the constructor `NewClass` (outside the sources). -/
def NewClass (name : string) : Class := { Name := name }

/-- Modelled from the spec: the constructor `NewLink` (outside the sources), with the defaults
`TestFlowchart_AddLink` expects. -/
def NewLink (src dst : Option Node) : Link :=
  { From := src, To := dst, Shape := linkShape.LinkShapeOpen,
    Head := linkArrowType.LinkArrowTypeArrow, Tail := linkArrowType.LinkArrowTypeNone,
    Length := 0, Text := "" }

/-- Modelled from the spec: the method `(*Subgraph).String(indent)` (outside the sources): the
opening line `subgraph <id> [<title>]` behind the indentation prefix, ended by one newline,
and nothing further. -/
def Subgraph.String (s : Subgraph) (indent : string) : string :=
  indent ++ "subgraph " ++ s.ID ++ " [" ++ s.Title ++ "]" ++ "\n"

section
variable {Base : Type}

/-- Modelled from the spec: the constructor `NewFlowchart()` (outside the sources): top-to-bottom
direction, empty collections, a fresh ID generator. -/
def NewFlowchart (newBase : Base) : Flowchart Base :=
  { BaseDiagram := newBase,
    Direction := flowchartDirection.FlowchartDirectionTopToBottom,
    classes := [], nodes := [], subgraphs := [], links := [],
    idGenerator := MockIDGenerator.zero }

/-- Modelled from the spec: the method `AddNode(text)` (outside the sources): takes the next
ID, builds the node, appends it to `nodes`, returns it. -/
def Flowchart.AddNode (f : Flowchart Base) (text : string) : Node × Flowchart Base :=
  let r := f.idGenerator.NextID
  let node := NewNode r.1 text
  (node, { f with idGenerator := r.2, nodes := f.nodes ++ [node] })

/-- Modelled from the spec: the method `AddSubgraph(title)` (outside the sources): takes the
next ID of the same generator, builds the subgraph, appends it to `subgraphs`, returns it. -/
def Flowchart.AddSubgraph (f : Flowchart Base) (title : string) : Subgraph × Flowchart Base :=
  let r := f.idGenerator.NextID
  let subgraph := NewSubgraph r.1 title
  (subgraph, { f with idGenerator := r.2, subgraphs := f.subgraphs ++ [subgraph] })

/-- Modelled from the spec: the method `AddClass(name)` (outside the sources): builds the
class, appends it to `classes`, returns it. -/
def Flowchart.AddClass (f : Flowchart Base) (name : string) : Class × Flowchart Base :=
  let c := NewClass name
  (c, { f with classes := f.classes ++ [c] })

/-- Modelled from the spec: the method `AddLink(from, to)` (outside the sources): builds the
link between the two handles without validating them, appends it to `links`, returns it. -/
def Flowchart.AddLink (f : Flowchart Base) (src dst : Option Node) : Link × Flowchart Base :=
  let link := NewLink src dst
  (link, { f with links := f.links ++ [link] })

/-- Modelled from the spec: the method `(*Flowchart).String()` (outside the sources), the
rendering algorithm of section 4.3: the header line, then classes, nodes, subgraphs and links,
each kind in insertion order, the whole handed to the shell. The renderings of classes, nodes
and links and the shell are parameters. -/
def Flowchart.String (shell : Base → string → string) (classString : Class → string)
    (nodeString : Node → string) (linkString : Link → string) (f : Flowchart Base) : string :=
  let sb := strings.Builder.new
  let sb := sb.WriteString ("flowchart " ++ f.Direction.code ++ "\n")
  let sb := f.classes.foldl (fun sb c => sb.WriteString (classString c)) sb
  let sb := f.nodes.foldl (fun sb node => sb.WriteString (nodeString node)) sb
  let sb := f.subgraphs.foldl (fun sb subgraph => sb.WriteString (subgraph.String "")) sb
  let sb := f.links.foldl (fun sb link => sb.WriteString (linkString link)) sb
  shell f.BaseDiagram sb.String

/-- The IDs stored in a flowchart: those of its nodes, then those of its subgraphs. -/
def Flowchart.storedIDs (f : Flowchart Base) : List string :=
  f.nodes.map Node.ID ++ f.subgraphs.map Subgraph.ID

/-- The largest length a Go slice can have: `len` is an `int`, at most 64 bits wide. -/
def maxSliceLen : Nat := 2 ^ 63 - 1

/-- The flowcharts that exist in Go: `nodes` and `subgraphs`, the slices that store every
entity that took an ID, have lengths a slice can have. -/
def Flowchart.fitsSlices (f : Flowchart Base) : Prop :=
  f.nodes.length ≤ maxSliceLen ∧ f.subgraphs.length ≤ maxSliceLen

instance instDecidableFitsSlices (f : Flowchart Base) : Decidable f.fitsSlices :=
  inferInstanceAs (Decidable (f.nodes.length ≤ maxSliceLen ∧ f.subgraphs.length ≤ maxSliceLen))

/-- One builder call on a flowchart. -/
inductive Call where
  | AddNode (text : string)
  | AddSubgraph (title : string)
  | AddClass (name : string)
  | AddLink (src dst : Option Node)
  deriving DecidableEq, Repr

/-- Whether a builder call takes an ID from the generator. -/
def Call.consumesID : Call → Bool
  | Call.AddNode _ => true
  | Call.AddSubgraph _ => true
  | Call.AddClass _ => false
  | Call.AddLink _ _ => false

/-- The number of ID-consuming calls in a call sequence. -/
def idCalls (cs : List Call) : Nat := (cs.filter Call.consumesID).length

/-- One builder call: the ID of the entity it returns, when the entity has one, and the
flowchart afterwards. -/
def Flowchart.call (f : Flowchart Base) : Call → Option string × Flowchart Base
  | Call.AddNode text => (some (f.AddNode text).1.ID, (f.AddNode text).2)
  | Call.AddSubgraph title => (some (f.AddSubgraph title).1.ID, (f.AddSubgraph title).2)
  | Call.AddClass name => (none, (f.AddClass name).2)
  | Call.AddLink src dst => (none, (f.AddLink src dst).2)

/-- A sequence of builder calls, in list order: the IDs of the entities returned by the
ID-consuming calls, in call order, and the flowchart afterwards. -/
def Flowchart.run (f : Flowchart Base) : List Call → List string × Flowchart Base
  | [] => ([], f)
  | c :: cs =>
    let r := f.call c
    let rest := r.2.run cs
    (r.1.toList ++ rest.1, rest.2)

end

end flowchart

/-! ## Package `state`: call sequences and the body text -/

namespace state

section
variable {Base State Transition StateType : Type}

/-- The text `sb.String()` that `String()` hands to the shell: the builder after the header
line and the two loops. -/
def Diagram.body (stateString : State → string → string)
    (transitionString : Transition → string → string)
    (d : Diagram Base State Transition) : string :=
  let sb := strings.Builder.new
  let sb := sb.WriteString baseDiagramType
  let sb := d.States.foldl (fun sb state => sb.WriteString (stateString state "")) sb
  let sb := d.Transitions.foldl
    (fun sb transition => sb.WriteString (transitionString transition "")) sb
  sb.String

/-- One call on a state diagram. -/
inductive Call (State StateType : Type) where
  | AddState (id description : string) (stateType : StateType)
  | AddTransition (src dst : State) (description : string)
  | String
  deriving DecidableEq, Repr

/-- The argument triples of the `AddState` calls of a call sequence, in call order. -/
def addStateCalls : List (Call State StateType) → List (string × string × StateType)
  | [] => []
  | Call.AddState id description stateType :: cs =>
    (id, description, stateType) :: addStateCalls cs
  | _ :: cs => addStateCalls cs

/-- The argument triples of the `AddTransition` calls of a call sequence, in call order. -/
def addTransitionCalls : List (Call State StateType) → List (State × State × string)
  | [] => []
  | Call.AddTransition src dst description :: cs =>
    (src, dst, description) :: addTransitionCalls cs
  | _ :: cs => addTransitionCalls cs

/-- One call: the diagram afterwards. A `String()` call is taken with the effects of its
callees explicit, as in `Diagram.StringM`. -/
def Diagram.call (NewState : string → string → StateType → State)
    (NewTransition : State → State → string → Transition)
    (shellM : Base → string → string × Base)
    (stateStringM : State → string → string × State)
    (transitionStringM : Transition → string → string × Transition)
    (d : Diagram Base State Transition) :
    Call State StateType → Diagram Base State Transition
  | Call.AddState id description stateType => (d.AddState NewState id description stateType).2
  | Call.AddTransition src dst description =>
    (d.AddTransition NewTransition src dst description).2
  | Call.String => (d.StringM shellM stateStringM transitionStringM).2

/-- A sequence of calls, in list order: the diagram afterwards. -/
def Diagram.run (NewState : string → string → StateType → State)
    (NewTransition : State → State → string → Transition)
    (shellM : Base → string → string × Base)
    (stateStringM : State → string → string × State)
    (transitionStringM : Transition → string → string × Transition)
    (d : Diagram Base State Transition) (cs : List (Call State StateType)) :
    Diagram Base State Transition :=
  cs.foldl (fun d c => d.call NewState NewTransition shellM stateStringM transitionStringM c) d

end

end state

/-- The texts of `parts` occur in `s` one after the other, in list order, without overlap. -/
def occursInOrder : string → List string → Prop
  | _, [] => True
  | s, part :: parts => ∃ before rest, s = before ++ part ++ rest ∧ occursInOrder rest parts

namespace strconv

/-- Go's `strconv.Itoa(n)` (the `%d` verb): the decimal rendering of a signed integer, with a
leading minus sign for a negative one. -/
def Itoa : Int → string
  | Int.ofNat m => FormatUint m
  | Int.negSucc m => "-" ++ FormatUint (m + 1)

end strconv

/-! ## Package `flowchart`: link setters and entity rendering -/

namespace flowchart

/-- Modelled from the spec: the setter `(*Link).SetText` (outside the sources): sets `Text`
and returns the link. -/
def Link.SetText (l : Link) (text : string) : Link := { l with Text := text }

/-- Modelled from the spec: the setter `(*Link).SetShape` (outside the sources): sets `Shape`
and returns the link. -/
def Link.SetShape (l : Link) (shape : linkShape) : Link := { l with Shape := shape }

/-- Modelled from the spec: the setter `(*Link).SetLength` (outside the sources): sets `Length`
and returns the link. -/
def Link.SetLength (l : Link) (length : Int) : Link := { l with Length := length }

/-- Modelled from the spec: the setter `(*Link).SetHead` (outside the sources): sets `Head`
and returns the link. -/
def Link.SetHead (l : Link) (arrowType : linkArrowType) : Link := { l with Head := arrowType }

/-- Modelled from the spec: the setter `(*Link).SetTail` (outside the sources): sets `Tail`
and returns the link. -/
def Link.SetTail (l : Link) (arrowType : linkArrowType) : Link := { l with Tail := arrowType }

/-- Modelled from the spec: the method `(*Node).String(indent)` (outside the sources): the
declaration line behind the indentation prefix, ended by one newline. The declaration is the
text `TestFlowchart_String` expects, in which the closing brace follows the closing quote of
the label directly. -/
def Node.String (n : Node) (indent : string) : string :=
  indent ++ n.ID ++ "@\x7b shape: " ++ n.Shape ++ ", label: \"" ++ n.Text ++ "\"\x7d" ++ "\n"

/-- The ID a link line shows for a node handle; the nil handle has none. -/
def handleID : Option Node → string
  | some n => n.ID
  | none => ""

/-- Whether a link has the settings `NewLink` gives it. -/
def Link.isDefault (l : Link) : Bool :=
  decide (l.Shape = linkShape.LinkShapeOpen) && decide (l.Head = linkArrowType.LinkArrowTypeArrow)
    && decide (l.Tail = linkArrowType.LinkArrowTypeNone) && decide (l.Length = 0)
    && decide (l.Text = "")

/-- Modelled from the spec: the method `(*Link).String(indent)` (outside the sources): the line
`<fromId> <arrow> <toId>` behind the indentation prefix, ended by one newline. The arrow of a
link in its default settings is `-->`; how the other settings compose their arrow is not given
by the spec and is the parameter `arrow`. -/
def Link.String (arrow : Link → string) (l : Link) (indent : string) : string :=
  indent ++ handleID l.From ++ " " ++ (if l.isDefault then "-->" else arrow l) ++ " "
    ++ handleID l.To ++ "\n"

/-- The call sequence `n1 := AddNode(a); n2 := AddNode(b); AddLink(n1, n2)` on a new flowchart:
the two nodes, the link and the flowchart afterwards. -/
def twoNodesLinked {Base : Type} (newBase : Base) (a b : string) :
    Node × Node × Link × Flowchart Base :=
  let r1 := (NewFlowchart newBase).AddNode a
  let r2 := r1.2.AddNode b
  let r3 := r2.2.AddLink (some r1.1) (some r2.1)
  (r1.1, r2.1, r3.1, r3.2)

end flowchart

/-! ## Package `block` (`diagrams/block/diagram_test.go` and the spec) -/

namespace block

/-- Modelled from the spec: the header line of a block diagram (the constant is declared
outside the sources). -/
def baseDiagramType : string := "block-beta\n"

/-- Modelled from the spec: the struct `Block` (declared outside the sources): the id shown in
its declaration and the text label. -/
structure Block where
  ID : string
  Text : string
  deriving DecidableEq, Repr

/-- Modelled from the spec: the struct `Link` (declared outside the sources): the two block
handles, nil allowed. -/
structure Link where
  From : Option Block
  To : Option Block
  deriving DecidableEq, Repr

/-- Modelled from the spec: the struct `Diagram` (declared outside the sources), with the
fields `TestNewDiagram` lists; `Base` stands for the embedded base diagram. The width of the
integer `Columns` is not visible in the sources; it is an integer. -/
structure Diagram (Base : Type) where
  BaseDiagram : Base
  Blocks : List Block
  Links : List Link
  Columns : Int
  deriving DecidableEq, Repr

/-- Modelled from the spec: the constructor `NewBlock` (outside the sources). -/
def NewBlock (id text : string) : Block := { ID := id, Text := text }

/-- Modelled from the spec: the constructor `NewLink` (outside the sources). -/
def NewLink (src dst : Option Block) : Link := { From := src, To := dst }

/-- Modelled from the spec: the method `(*Block).String(indent)` (outside the sources): the
declaration `<id>["<text>"]` behind the indentation prefix, ended by one newline. -/
def Block.String (b : Block) (indent : string) : string :=
  indent ++ b.ID ++ "[\"" ++ b.Text ++ "\"]" ++ "\n"

/-- The id a link line shows for a block handle; the nil handle has none. -/
def handleID : Option Block → string
  | some b => b.ID
  | none => ""

/-- Modelled from the spec: the method `(*Link).String(indent)` (outside the sources): the line
`<fromId> --> <toId>` behind the indentation prefix, ended by one newline. -/
def Link.String (l : Link) (indent : string) : string :=
  indent ++ handleID l.From ++ " " ++ "-->" ++ " " ++ handleID l.To ++ "\n"

section
variable {Base : Type}

/-- Modelled from the spec: the constructor `NewDiagram()` (outside the sources): empty
collections, column count zero. -/
def NewDiagram (newBase : Base) : Diagram Base :=
  { BaseDiagram := newBase, Blocks := [], Links := [], Columns := 0 }

/-- Modelled from the spec: the method `SetColumns(count)` (outside the sources): stores the
count and returns the diagram. -/
def Diagram.SetColumns (d : Diagram Base) (count : Int) : Diagram Base :=
  { d with Columns := count }

/-- Modelled from the spec: the method `AddColumn()` (outside the sources): increments the
stored count by one and returns the diagram. -/
def Diagram.AddColumn (d : Diagram Base) : Diagram Base :=
  { d with Columns := d.Columns + 1 }

/-- Modelled from the spec: the method `RemoveColumn()` (outside the sources): decrements the
stored count by one, with no lower bound, and returns the diagram. -/
def Diagram.RemoveColumn (d : Diagram Base) : Diagram Base :=
  { d with Columns := d.Columns - 1 }

/-- Modelled from the spec: the method `AddBlock(text)` (outside the sources): builds the block,
appends it to `Blocks`, returns it. A block has no identity beyond its insertion order: the id
shown for the block inserted at a position is the parameter `blockID`. -/
def Diagram.AddBlock (blockID : Nat → string) (d : Diagram Base) (text : string) :
    Block × Diagram Base :=
  let b := NewBlock (blockID d.Blocks.length) text
  (b, { d with Blocks := d.Blocks ++ [b] })

/-- Modelled from the spec: the method `AddLink(from, to)` (outside the sources): builds the
link between the two handles without validating them, appends it to `Links`, returns it. -/
def Diagram.AddLink (d : Diagram Base) (src dst : Option Block) : Link × Diagram Base :=
  let link := NewLink src dst
  (link, { d with Links := d.Links ++ [link] })

/-- Modelled from the spec: the method `(*Diagram).String()` (outside the sources): the header
line, the directive `columns <n>` of the stored count, the blocks in insertion order, the links
in insertion order, the whole handed to the shell. The spec names no count for which the
directive is left out, so it is written for every count, the literal value included when
negative. -/
def Diagram.String (shell : Base → string → string) (d : Diagram Base) : string :=
  let sb := strings.Builder.new
  let sb := sb.WriteString baseDiagramType
  let sb := sb.WriteString ("columns " ++ strconv.Itoa d.Columns ++ "\n")
  let sb := d.Blocks.foldl (fun sb b => sb.WriteString (b.String "")) sb
  let sb := d.Links.foldl (fun sb link => sb.WriteString (link.String "")) sb
  shell d.BaseDiagram sb.String

/-- The call sequence `b1 := AddBlock(a); b2 := AddBlock(b); AddLink(b1, b2)` on a new diagram:
the two blocks, the link and the diagram afterwards. -/
def twoBlocksLinked (blockID : Nat → string) (newBase : Base) (a b : string) :
    Block × Block × Link × Diagram Base :=
  let r1 := (NewDiagram newBase).AddBlock blockID a
  let r2 := r1.2.AddBlock blockID b
  let r3 := r2.2.AddLink (some r1.1) (some r2.1)
  (r1.1, r2.1, r3.1, r3.2)

end

end block

/-! ## Helper lemmas -/

theorem concatAll_append (xs ys : List string) :
    concatAll (xs ++ ys) = concatAll xs ++ concatAll ys := by
  induction xs with
  | nil => simp [concatAll]
  | cons x xs ih => simp [concatAll, ih, String.append_assoc]

theorem Builder_foldl_WriteString {α : Type} (f : α → string) (xs : List α)
    (sb : strings.Builder) :
    (xs.foldl (fun sb x => sb.WriteString (f x)) sb).String
      = sb.String ++ concatAll (xs.map f) := by
  induction xs generalizing sb with
  | nil => simp [concatAll, strings.Builder.String]
  | cons x xs ih =>
    simp only [List.foldl_cons, List.map_cons, ih]
    simp [concatAll, strings.Builder.String, strings.Builder.WriteString, String.append_assoc]

theorem concatAll_data_append_left (pre x rest : string) :
    x.data <:+: (pre ++ (x ++ rest)).data := by
  refine ⟨pre.data, rest.data, ?_⟩
  simp [String.data_append]

theorem addStates_eq {Base State Transition StateType : Type}
    (NewState : string → string → StateType → State)
    (d : state.Diagram Base State Transition) (calls : List (string × string × StateType)) :
    state.addStates NewState d calls
      = { d with States := d.States ++ calls.map (fun c => NewState c.1 c.2.1 c.2.2) } := by
  induction calls generalizing d with
  | nil => simp [state.addStates]
  | cons c cs ih =>
    have h := ih (d.AddState NewState c.1 c.2.1 c.2.2).2
    simp only [state.addStates, List.foldl_cons] at h ⊢
    rw [h]
    simp [state.Diagram.AddState]

theorem StringM_loop_any {State : Type} (stateStringM : State → string → string × State)
    (xs : List State) (acc : strings.Builder × List State) :
    xs.foldl
        (fun (acc : strings.Builder × List State) state =>
          ((acc.1.WriteString (stateStringM state "").1, acc.2 ++ [(stateStringM state "").2]) :
            strings.Builder × List State)) acc
      = (xs.foldl (fun sb state => sb.WriteString (stateStringM state "").1) acc.1,
          acc.2 ++ xs.map (fun state => (stateStringM state "").2)) := by
  induction xs generalizing acc with
  | nil => simp
  | cons x xs ih =>
    rw [List.foldl_cons, ih]
    simp

theorem StringM_loop {State : Type} (stateStringM : State → string → string × State)
    (hs : ∀ s indent, (stateStringM s indent).2 = s) (xs : List State)
    (acc : strings.Builder × List State) :
    xs.foldl
        (fun (acc : strings.Builder × List State) state =>
          ((acc.1.WriteString (stateStringM state "").1, acc.2 ++ [(stateStringM state "").2]) :
            strings.Builder × List State)) acc
      = (xs.foldl (fun sb state => sb.WriteString (stateStringM state "").1) acc.1,
          acc.2 ++ xs) := by
  induction xs generalizing acc with
  | nil => simp
  | cons x xs ih =>
    rw [List.foldl_cons, ih]
    simp [hs]

theorem state_String_eq_body_aux {Base State Transition : Type}
    (shell : Base → string → string)
    (stateString : State → string → string)
    (transitionString : Transition → string → string)
    (d : state.Diagram Base State Transition) :
    d.String shell stateString transitionString
      = shell d.BaseDiagram
          ("stateDiagram-v2\n"
            ++ concatAll (d.States.map (fun s => stateString s ""))
            ++ concatAll (d.Transitions.map (fun t => transitionString t ""))) := by
  unfold state.Diagram.String
  simp only [Builder_foldl_WriteString]
  simp [strings.Builder.String, strings.Builder.WriteString, strings.Builder.new,
    state.baseDiagramType]

theorem afterCalls_currentID (m : flowchart.MockIDGenerator) (hm : m.valid) (k : Nat) :
    (m.afterCalls k).currentID = (m.currentID + k) % 2 ^ 64 := by
  induction k with
  | zero =>
    simp only [flowchart.MockIDGenerator.afterCalls, Nat.add_zero]
    exact (Nat.mod_eq_of_lt hm).symm
  | succ k ih =>
    simp only [flowchart.MockIDGenerator.afterCalls, flowchart.MockIDGenerator.NextID, ih]
    omega

theorem kthResult_eq (m : flowchart.MockIDGenerator) (hm : m.valid) (k : Nat) :
    m.kthResult k = (m.currentID + k) % 2 ^ 64 := by
  simp only [flowchart.MockIDGenerator.kthResult, flowchart.MockIDGenerator.NextID]
  exact afterCalls_currentID m hm k

/-! ### Decimal rendering -/

theorem digitChar_toNat (d : Nat) (hd : d < 10) : (Nat.digitChar d).toNat = 48 + d := by
  interval_cases d <;> rfl

theorem digitValue_digitChar (d : Nat) (hd : d < 10) : digitValue (Nat.digitChar d) = d := by
  simp [digitValue, digitChar_toNat d hd]
theorem toDigitsCore_append (fuel n : Nat) (ds : List Char) :
    Nat.toDigitsCore 10 fuel n ds = Nat.toDigitsCore 10 fuel n [] ++ ds := by
  induction fuel generalizing n ds with
  | zero => simp [Nat.toDigitsCore]
  | succ fuel ih =>
    simp only [Nat.toDigitsCore]
    split
    · simp
    · rw [ih (n / 10) (Nat.digitChar (n % 10) :: ds), ih (n / 10) [Nat.digitChar (n % 10)]]
      simp
theorem decimalValueFrom_nil (acc : Nat) : decimalValueFrom acc [] = acc := rfl

theorem decimalValueFrom_cons (acc : Nat) (c : Char) (cs : List Char) :
    decimalValueFrom acc (c :: cs) = decimalValueFrom (10 * acc + digitValue c) cs := rfl

theorem decimalValueFrom_append (acc : Nat) (xs ys : List Char) :
    decimalValueFrom acc (xs ++ ys) = decimalValueFrom (decimalValueFrom acc xs) ys := by
  induction xs generalizing acc with
  | nil => rfl
  | cons x xs ih => exact ih (10 * acc + digitValue x)

theorem decimalValueFrom_toDigitsCore (fuel n : Nat) (h : n < fuel) :
    decimalValueFrom 0 (Nat.toDigitsCore 10 fuel n []) = n := by
  induction fuel generalizing n with
  | zero => omega
  | succ fuel ih =>
    have hd := digitValue_digitChar (n % 10) (Nat.mod_lt n (by decide))
    simp only [Nat.toDigitsCore]
    split
    · rename_i h0
      rw [decimalValueFrom_cons, decimalValueFrom_nil, hd]
      omega
    · rename_i h0
      rw [toDigitsCore_append, decimalValueFrom_append, ih (n / 10) (by omega),
        decimalValueFrom_cons, decimalValueFrom_nil, hd]
      omega

theorem toDigitsCore_digits (fuel n : Nat) :
    ∀ c ∈ Nat.toDigitsCore 10 fuel n [], IsDigitChar c := by
  induction fuel generalizing n with
  | zero => simp [Nat.toDigitsCore]
  | succ fuel ih =>
    intro c hc
    simp only [Nat.toDigitsCore] at hc
    have hd : IsDigitChar (Nat.digitChar (n % 10)) := ⟨n % 10, Nat.mod_lt _ (by decide), rfl⟩
    split at hc
    · simp only [List.mem_singleton] at hc
      rw [hc]; exact hd
    · rw [toDigitsCore_append] at hc
      rcases List.mem_append.mp hc with h | h
      · exact ih _ c h
      · simp only [List.mem_singleton] at h
        rw [h]; exact hd

theorem decimalValue_FormatUint (n : Nat) : decimalValue (strconv.FormatUint n) = n := by
  simp only [decimalValue, strconv.FormatUint, Nat.repr, Nat.toDigits, List.asString]
  exact decimalValueFrom_toDigitsCore (n + 1) n (by omega)

theorem FormatUint_injective : Function.Injective strconv.FormatUint := by
  intro a b h
  have := congrArg decimalValue h
  rwa [decimalValue_FormatUint, decimalValue_FormatUint] at this

theorem FormatUint_digits (n : Nat) : ∀ c ∈ (strconv.FormatUint n).data, IsDigitChar c := by
  simp only [strconv.FormatUint, Nat.repr, Nat.toDigits, List.asString]
  exact toDigitsCore_digits (n + 1) n

theorem decimalValueFrom_acc (acc : Nat) (xs : List Char) :
    decimalValueFrom acc xs = acc * 10 ^ xs.length + decimalValueFrom 0 xs := by
  induction xs generalizing acc with
  | nil => simp [decimalValueFrom_nil]
  | cons x xs ih =>
    rw [decimalValueFrom_cons, decimalValueFrom_cons, List.length_cons,
      ih (10 * acc + digitValue x), ih (10 * 0 + digitValue x)]
    ring

theorem decimalValueFrom_lt (xs : List Char) (hx : ∀ c ∈ xs, IsDigitChar c) :
    decimalValueFrom 0 xs < 10 ^ xs.length := by
  induction xs with
  | nil => simp [decimalValueFrom_nil]
  | cons x xs ih =>
    obtain ⟨d, hd, rfl⟩ := hx x (List.mem_cons_self _ _)
    have h2 := ih (fun c hc => hx c (List.mem_cons_of_mem _ hc))
    rw [decimalValueFrom_cons, List.length_cons, decimalValueFrom_acc,
      digitValue_digitChar d hd, pow_succ]
    nlinarith

theorem stringLessData_of_decimalValue_lt (xs ys : List Char)
    (hlen : xs.length = ys.length)
    (hx : ∀ c ∈ xs, IsDigitChar c) (hy : ∀ c ∈ ys, IsDigitChar c)
    (hlt : decimalValueFrom 0 xs < decimalValueFrom 0 ys) :
    stringLessData xs ys = true := by
  induction xs generalizing ys with
  | nil =>
    cases ys with
    | nil => simp [decimalValueFrom_nil] at hlt
    | cons y ys => simp at hlen
  | cons x xs ih =>
    cases ys with
    | nil => simp at hlen
    | cons y ys =>
      obtain ⟨dx, hdx, rfl⟩ := hx _ (List.mem_cons_self _ _)
      obtain ⟨dy, hdy, rfl⟩ := hy _ (List.mem_cons_self _ _)
      have hx2 : ∀ c ∈ xs, IsDigitChar c := fun c hc => hx c (List.mem_cons_of_mem _ hc)
      have hy2 : ∀ c ∈ ys, IsDigitChar c := fun c hc => hy c (List.mem_cons_of_mem _ hc)
      have hl : xs.length = ys.length := by simpa using hlen
      have bx := decimalValueFrom_lt xs hx2
      have by2 := decimalValueFrom_lt ys hy2
      rw [decimalValueFrom_cons, decimalValueFrom_cons,
        decimalValueFrom_acc _ xs, decimalValueFrom_acc _ ys, digitValue_digitChar dx hdx,
        digitValue_digitChar dy hdy, hl] at hlt
      rw [hl] at bx
      simp only [stringLessData, digitChar_toNat dx hdx, digitChar_toNat dy hdy]
      rcases Nat.lt_trichotomy dx dy with h | h | h
      · simp [h]
      · subst h
        simp only [Nat.lt_irrefl, if_false]
        exact ih ys hl hx2 hy2 (by omega)
      · exfalso
        have : (dy + 1) * 10 ^ ys.length ≤ dx * 10 ^ ys.length :=
          Nat.mul_le_mul_right _ h
        nlinarith

/-! ### Flowchart call sequences -/

theorem NextID_valid (m : flowchart.MockIDGenerator) : m.NextID.2.valid :=
  Nat.mod_lt _ (by decide)

theorem NewFlowchart_valid {Base : Type} (newBase : Base) :
    (flowchart.NewFlowchart newBase).idGenerator.valid :=
  (by decide : (0 : Nat) < 2 ^ 64)

theorem idCalls_cons (c : flowchart.Call) (cs : List flowchart.Call) :
    flowchart.idCalls (c :: cs)
      = (if c.consumesID then 1 else 0) + flowchart.idCalls cs := by
  unfold flowchart.idCalls
  cases h : c.consumesID <;> simp [List.filter_cons, h, Nat.add_comm]

theorem call_generator {Base : Type} (f : flowchart.Flowchart Base) (c : flowchart.Call) :
    (f.call c).2.idGenerator
      = if c.consumesID then f.idGenerator.NextID.2 else f.idGenerator := by
  cases c <;> rfl

theorem call_id {Base : Type} (f : flowchart.Flowchart Base) (c : flowchart.Call) :
    (f.call c).1
      = if c.consumesID then some (strconv.FormatUint f.idGenerator.currentID) else none := by
  cases c <;> rfl

theorem run_generator {Base : Type} (cs : List flowchart.Call) (f : flowchart.Flowchart Base)
    (hv : f.idGenerator.valid) :
    (f.run cs).2.idGenerator.currentID
      = (f.idGenerator.currentID + flowchart.idCalls cs) % 2 ^ 64 := by
  induction cs generalizing f with
  | nil =>
    simp only [flowchart.Flowchart.run, flowchart.idCalls, List.filter_nil, List.length_nil,
      Nat.add_zero]
    exact (Nat.mod_eq_of_lt hv).symm
  | cons c cs ih =>
    simp only [flowchart.Flowchart.run, idCalls_cons]
    cases hc : c.consumesID
    · have hg : (f.call c).2.idGenerator = f.idGenerator := by rw [call_generator, hc]; rfl
      rw [ih _ (by rw [hg]; exact hv), hg]
      simp
    · have hg : (f.call c).2.idGenerator = f.idGenerator.NextID.2 := by
        rw [call_generator, hc]; rfl
      rw [ih _ (by rw [hg]; exact NextID_valid _), hg]
      simp only [flowchart.MockIDGenerator.NextID, if_true]
      omega

theorem run_ids {Base : Type} (cs : List flowchart.Call) (f : flowchart.Flowchart Base)
    (hv : f.idGenerator.valid) :
    (f.run cs).1
      = (List.range (flowchart.idCalls cs)).map
          (fun i => strconv.FormatUint ((f.idGenerator.currentID + i) % 2 ^ 64)) := by
  induction cs generalizing f with
  | nil => rfl
  | cons c cs ih =>
    simp only [flowchart.Flowchart.run, idCalls_cons]
    cases hc : c.consumesID
    · have hg : (f.call c).2.idGenerator = f.idGenerator := by rw [call_generator, hc]; rfl
      rw [ih _ (by rw [hg]; exact hv), hg, call_id, hc]
      simp
    · have hg : (f.call c).2.idGenerator = f.idGenerator.NextID.2 := by
        rw [call_generator, hc]; rfl
      rw [ih _ (by rw [hg]; exact NextID_valid _), hg, call_id, hc]
      simp only [if_true, Option.toList, List.singleton_append, Nat.add_comm 1,
        List.range_succ_eq_map, List.map_cons, List.map_map, Nat.add_zero,
        flowchart.MockIDGenerator.NextID]
      rw [Nat.mod_eq_of_lt hv]
      congr 1
      apply List.map_congr_left
      intro i _
      simp only [Function.comp_apply]
      congr 1
      omega

theorem run_storedIDs {Base : Type} (cs : List flowchart.Call)
    (f : flowchart.Flowchart Base) :
    (f.run cs).2.storedIDs.Perm (f.storedIDs ++ (f.run cs).1) := by
  induction cs generalizing f with
  | nil => simp [flowchart.Flowchart.run]
  | cons c cs ih =>
    simp only [flowchart.Flowchart.run]
    refine (ih (f.call c).2).trans ?_
    rw [← List.append_assoc]
    refine List.Perm.append_right _ ?_
    cases c with
    | AddNode text =>
      simp only [flowchart.Flowchart.call, flowchart.Flowchart.AddNode,
        flowchart.Flowchart.storedIDs, List.map_append, List.map_cons, List.map_nil,
        Option.toList, List.append_assoc]
      exact List.Perm.append_left _ List.perm_append_comm
    | AddSubgraph title =>
      simp [flowchart.Flowchart.call, flowchart.Flowchart.AddSubgraph,
        flowchart.Flowchart.storedIDs, Option.toList]
    | AddClass name =>
      simp [flowchart.Flowchart.call, flowchart.Flowchart.AddClass,
        flowchart.Flowchart.storedIDs, Option.toList]
    | AddLink src dst =>
      simp [flowchart.Flowchart.call, flowchart.Flowchart.AddLink,
        flowchart.Flowchart.storedIDs, Option.toList]

/-! ## Package `state`: rendering -/

section StateDiagram
open state
variable {Base State Transition StateType : Type}

/-- C1: for every state diagram, `String()` is the shell applied to the body made of the header
line, then the fragments `s.String("")` of the states in slice order, then the fragments
`t.String("")` of the transitions in slice order, and nothing else. -/
theorem state_String_eq_shell_of_body (shell : Base → string → string)
    (stateString : State → string → string)
    (transitionString : Transition → string → string)
    (d : Diagram Base State Transition) :
    d.String shell stateString transitionString
      = shell d.BaseDiagram
          ("stateDiagram-v2\n"
            ++ concatAll (d.States.map (fun s => stateString s ""))
            ++ concatAll (d.Transitions.map (fun t => transitionString t ""))) :=
  state_String_eq_body_aux shell stateString transitionString d

/-- C2: on a diagram created by `NewDiagram()` whose shell returns the body unchanged (no
configuration set), after successive `AddState` calls `String()` is the header line followed by
the fragments of the added states in call order; hence whenever one call comes before another,
the fragment of the earlier state lies wholly before the fragment of the later one. -/
theorem state_AddState_emission_order (shell : Base → string → string) (newBase : Base)
    (NewState : string → string → StateType → State)
    (stateString : State → string → string)
    (transitionString : Transition → string → string)
    (hshell : ∀ body, shell newBase body = body)
    (calls : List (string × string × StateType)) :
    (addStates NewState (NewDiagram newBase : Diagram Base State Transition) calls).String
        shell stateString transitionString
      = "stateDiagram-v2\n"
          ++ concatAll (calls.map (fun c => stateString (NewState c.1 c.2.1 c.2.2) ""))
    ∧ ∀ (before : List (string × string × StateType)) (ci : string × string × StateType)
        (between : List (string × string × StateType)) (cj : string × string × StateType)
        (after : List (string × string × StateType)),
        calls = before ++ ci :: (between ++ cj :: after) →
        (addStates NewState (NewDiagram newBase : Diagram Base State Transition) calls).String
            shell stateString transitionString
          = ("stateDiagram-v2\n"
              ++ concatAll (before.map (fun c => stateString (NewState c.1 c.2.1 c.2.2) "")))
            ++ stateString (NewState ci.1 ci.2.1 ci.2.2) ""
            ++ concatAll (between.map (fun c => stateString (NewState c.1 c.2.1 c.2.2) ""))
            ++ stateString (NewState cj.1 cj.2.1 cj.2.2) ""
            ++ concatAll (after.map (fun c => stateString (NewState c.1 c.2.1 c.2.2) "")) := by
  have key : (addStates NewState (NewDiagram newBase : Diagram Base State Transition)
        calls).String shell stateString transitionString
      = "stateDiagram-v2\n"
          ++ concatAll (calls.map (fun c => stateString (NewState c.1 c.2.1 c.2.2) "")) := by
    rw [state_String_eq_body_aux, addStates_eq]
    simp [NewDiagram, hshell, concatAll, List.map_map, Function.comp_def]
  refine ⟨key, ?_⟩
  intro before ci between cj after hcalls
  rw [key, hcalls]
  simp [concatAll_append, concatAll, String.append_assoc]

/-- C2 at a concrete input: two `AddState` calls on a fresh diagram whose shell is the
identity. -/
theorem state_AddState_emission_order_witness :
    (addStates (fun id description (_ : Nat) => id ++ ":" ++ description)
        (NewDiagram () : Diagram Unit string string) [("a", "A", 0), ("b", "B", 1)]).String
        (fun _ body => body) (fun s indent => indent ++ s ++ "\n") (fun t _ => t)
      = "stateDiagram-v2\n"
          ++ concatAll ([("a", "A", 0), ("b", "B", 1)].map
              (fun c => (fun (s : string) (indent : string) => indent ++ s ++ "\n")
                ((fun id description (_ : Nat) => id ++ ":" ++ description) c.1 c.2.1 c.2.2) "")) :=
  (state_AddState_emission_order (fun _ body => body) ()
    (fun id description (_ : Nat) => id ++ ":" ++ description)
    (fun s indent => indent ++ s ++ "\n") (fun t _ => t) (fun _ => rfl)
    [("a", "A", 0), ("b", "B", 1)]).1

/-- C3: when the shell returns its configuration header (possibly empty) followed by the body
verbatim, `String()` of every state diagram is non-empty and contains `stateDiagram-v2`, with
any number of states and transitions; in particular so does `NewDiagram().String()`. -/
theorem state_String_contains_header (shell : Base → string → string)
    (header : Base → string)
    (stateString : State → string → string)
    (transitionString : Transition → string → string)
    (hshell : ∀ b body, shell b body = header b ++ body)
    (d : Diagram Base State Transition) (newBase : Base) :
    strings.Contains (d.String shell stateString transitionString) "stateDiagram-v2"
    ∧ d.String shell stateString transitionString ≠ ""
    ∧ strings.Contains
        ((NewDiagram newBase : Diagram Base State Transition).String
          shell stateString transitionString) "stateDiagram-v2" := by
  have key : ∀ e : Diagram Base State Transition,
      strings.Contains (e.String shell stateString transitionString) "stateDiagram-v2" := by
    intro e
    rw [state_String_eq_body_aux, hshell]
    have : ("stateDiagram-v2\n" : string) = "stateDiagram-v2" ++ "\n" := by decide
    rw [this, String.append_assoc, String.append_assoc]
    exact concatAll_data_append_left _ _ _
  refine ⟨key d, ?_, key _⟩
  intro h
  have hc := key d
  rw [h] at hc
  exact absurd hc (by decide)

/-- C3 at a concrete input: a diagram with one state and one transition under a shell that
prepends a front-matter header. -/
theorem state_String_contains_header_witness :
    strings.Contains
      ((⟨"dark", ["s"], ["t"]⟩ : Diagram string string string).String
        (fun b body => ("---\ntheme: " ++ b ++ "\n---\n") ++ body)
        (fun s indent => indent ++ s ++ "\n") (fun t indent => indent ++ t ++ "\n"))
      "stateDiagram-v2" :=
  (state_String_contains_header (fun b body => ("---\ntheme: " ++ b ++ "\n---\n") ++ body)
    (fun b => "---\ntheme: " ++ b ++ "\n---\n")
    (fun s indent => indent ++ s ++ "\n") (fun t indent => indent ++ t ++ "\n")
    (fun _ _ => rfl) ⟨"dark", ["s"], ["t"]⟩ "").1

/-- C4: `String()` is side-effect free and deterministic. The method assigns nothing itself:
whatever the methods it calls do, it calls the `String("")` of each state and of each
transition exactly once, in slice order, and the shell once, so that afterwards `States`,
`Transitions` and the base diagram hold what these calls left, entry by entry, and the text is
the rendering made of the texts they returned. With the callees as the spec describes them
(serializations that leave their receiver as it was) a call of `String()` therefore leaves the
diagram, its states and its transitions unchanged, and a second call on the diagram left by the
first returns the same text. -/
theorem state_String_pure_and_repeatable (shellM : Base → string → string × Base)
    (stateStringM : State → string → string × State)
    (transitionStringM : Transition → string → string × Transition)
    (shell : Base → string → string) (stateString : State → string → string)
    (transitionString : Transition → string → string)
    (d : Diagram Base State Transition) :
    (d.StringM shellM stateStringM transitionStringM).2.States
        = d.States.map (fun s => (stateStringM s "").2)
    ∧ (d.StringM shellM stateStringM transitionStringM).2.Transitions
        = d.Transitions.map (fun t => (transitionStringM t "").2)
    ∧ (d.StringM shellM stateStringM transitionStringM).2.BaseDiagram
        = (shellM d.BaseDiagram
            (d.body (fun s indent => (stateStringM s indent).1)
              (fun t indent => (transitionStringM t indent).1))).2
    ∧ (d.StringM shellM stateStringM transitionStringM).1
        = d.String (fun b body => (shellM b body).1) (fun s indent => (stateStringM s indent).1)
            (fun t indent => (transitionStringM t indent).1)
    ∧ (d.StringM (shellCall shell) (stateStringCall stateString)
          (transitionStringCall transitionString)).2 = d
    ∧ (d.StringM (shellCall shell) (stateStringCall stateString)
          (transitionStringCall transitionString)).1
        = d.String shell stateString transitionString
    ∧ ((d.StringM (shellCall shell) (stateStringCall stateString)
          (transitionStringCall transitionString)).2.StringM
          (shellCall shell) (stateStringCall stateString)
          (transitionStringCall transitionString)).1
        = (d.StringM (shellCall shell) (stateStringCall stateString)
          (transitionStringCall transitionString)).1 := by
  have hgen : ∀ (sh : Base → string → string × Base) (st : State → string → string × State)
      (tr : Transition → string → string × Transition),
      d.StringM sh st tr
        = ((sh d.BaseDiagram
              (d.body (fun s indent => (st s indent).1) (fun t indent => (tr t indent).1))).1,
            { BaseDiagram := (sh d.BaseDiagram
                (d.body (fun s indent => (st s indent).1) (fun t indent => (tr t indent).1))).2,
              States := d.States.map (fun s => (st s "").2),
              Transitions := d.Transitions.map (fun t => (tr t "").2) }) := by
    intro sh st tr
    unfold Diagram.StringM Diagram.body
    simp only [StringM_loop_any, List.nil_append]
  have hcall : d.StringM (shellCall shell) (stateStringCall stateString)
        (transitionStringCall transitionString)
      = (d.String shell stateString transitionString, d) := by
    rw [hgen]
    cases d
    simp [shellCall, stateStringCall, transitionStringCall, Diagram.String, Diagram.body]
  refine ⟨?_, ?_, ?_, ?_, ?_, ?_, ?_⟩
  · rw [hgen]
  · rw [hgen]
  · rw [hgen]
  · rw [hgen]; rfl
  · rw [hcall]
  · rw [hcall]
  · rw [hcall, hcall]

/-- C5: `AddState` appends exactly one state at the end of `States`: the new list is the old
one followed by the state built from the arguments, which is also the returned state; the
length grows by one, every earlier entry keeps its position, and `Transitions` and the base
diagram are unchanged. -/
theorem state_AddState_appends_one (NewState : string → string → StateType → State)
    (d : Diagram Base State Transition) (id description : string) (stateType : StateType) :
    (d.AddState NewState id description stateType).2.States
        = d.States ++ [(d.AddState NewState id description stateType).1]
    ∧ (d.AddState NewState id description stateType).1 = NewState id description stateType
    ∧ (d.AddState NewState id description stateType).2.States.length = d.States.length + 1
    ∧ (∀ i, i < d.States.length →
        (d.AddState NewState id description stateType).2.States[i]? = d.States[i]?)
    ∧ (d.AddState NewState id description stateType).2.States.getLast?
        = some (d.AddState NewState id description stateType).1
    ∧ (d.AddState NewState id description stateType).2.Transitions = d.Transitions
    ∧ (d.AddState NewState id description stateType).2.BaseDiagram = d.BaseDiagram := by
  refine ⟨rfl, rfl, ?_, ?_, ?_, rfl, rfl⟩
  · simp [Diagram.AddState]
  · intro i hi
    simp [Diagram.AddState, List.getElem?_append_left hi]
  · simp [Diagram.AddState]

/-- C6: `AddTransition` is total and validates nothing: for any two state handles, members of
`States` or not, equal or not, it appends exactly one transition at the end of `Transitions`
(the one built from the arguments, which is also the returned one), and leaves `States` and the
base diagram unchanged. -/
theorem state_AddTransition_appends_one
    (NewTransition : State → State → string → Transition)
    (d : Diagram Base State Transition) (src dst : State) (description : string) :
    (d.AddTransition NewTransition src dst description).2.Transitions
        = d.Transitions ++ [(d.AddTransition NewTransition src dst description).1]
    ∧ (d.AddTransition NewTransition src dst description).1
        = NewTransition src dst description
    ∧ (d.AddTransition NewTransition src dst description).2.Transitions.length
        = d.Transitions.length + 1
    ∧ (∀ i, i < d.Transitions.length →
        (d.AddTransition NewTransition src dst description).2.Transitions[i]?
          = d.Transitions[i]?)
    ∧ (d.AddTransition NewTransition src dst description).2.States = d.States
    ∧ (d.AddTransition NewTransition src dst description).2.BaseDiagram = d.BaseDiagram
    ∧ (d.AddTransition NewTransition src src description).2.States = d.States := by
  refine ⟨rfl, rfl, ?_, ?_, rfl, rfl, rfl⟩
  · simp [Diagram.AddTransition]
  · intro i hi
    simp [Diagram.AddTransition, List.getElem?_append_left hi]

end StateDiagram

/-! ## The ID generator -/

section IDGenerator
open flowchart

/-- C7 (as the claim states it, refuted): from a fresh generator the call number `2 ^ 64` does
not return `2 ^ 64`; the 64-bit counter has wrapped and the call returns 0, the result of call
number 0, again. -/
theorem NextID_wraps_after_two_pow_64_calls :
    MockIDGenerator.zero.kthResult (2 ^ 64) ≠ 2 ^ 64
    ∧ MockIDGenerator.zero.kthResult (2 ^ 64) = 0
    ∧ MockIDGenerator.zero.kthResult (2 ^ 64) = MockIDGenerator.zero.kthResult 0 := by
  have h : MockIDGenerator.zero.kthResult (2 ^ 64) = 0 := by
    rw [kthResult_eq _ (by decide)]
    decide
  refine ⟨?_, h, ?_⟩
  · rw [h]; decide
  · rw [h]; rfl

/-- C7 (amended): from a fresh generator, for every `k` below `2 ^ 64` the `k`-th `NextID()`
call (counting from 0) returns `k`, so these results have no gaps and no repeats; every call
returns the counter value held before it, and advances the counter by exactly 1 unless the
counter holds the largest 64-bit value. -/
theorem NextID_kth_result (k : Nat) (hk : k < 2 ^ 64) :
    MockIDGenerator.zero.kthResult k = k
    ∧ (MockIDGenerator.zero.afterCalls k).currentID = k
    ∧ (∀ j, j < 2 ^ 64 →
        MockIDGenerator.zero.kthResult j = MockIDGenerator.zero.kthResult k → j = k)
    ∧ (∀ m : MockIDGenerator, m.NextID.1 = m.currentID)
    ∧ (∀ m : MockIDGenerator, m.currentID + 1 < 2 ^ 64 →
        m.NextID.2.currentID = m.currentID + 1) := by
  have hz : MockIDGenerator.zero.valid := by decide
  have hres : ∀ j, j < 2 ^ 64 → MockIDGenerator.zero.kthResult j = j := by
    intro j hj
    rw [kthResult_eq _ hz]
    simp only [MockIDGenerator.zero, Nat.zero_add]
    exact Nat.mod_eq_of_lt hj
  refine ⟨hres k hk, ?_, ?_, fun _ => rfl, ?_⟩
  · rw [afterCalls_currentID _ hz]
    simp only [MockIDGenerator.zero, Nat.zero_add]
    exact Nat.mod_eq_of_lt hk
  · intro j hj h
    rw [hres j hj, hres k hk] at h
    exact h
  · intro m hm
    simp only [MockIDGenerator.NextID]
    exact Nat.mod_eq_of_lt hm

/-- C7 (amended) at a concrete input: the call number 5 of a fresh generator returns 5. -/
theorem NextID_kth_result_witness : MockIDGenerator.zero.kthResult 5 = 5 :=
  (NextID_kth_result 5 (by decide)).1

/-- C8 (as the claim states it, refuted): in the state whose counter holds the largest 64-bit
value, two successive `NextID()` calls return `2 ^ 64 - 1` and then 0, and the second result is
not greater than the first. -/
theorem NextID_not_increasing_at_max :
    (MockIDGenerator.mk (2 ^ 64 - 1)).valid
    ∧ (MockIDGenerator.mk (2 ^ 64 - 1)).NextID.1 = 2 ^ 64 - 1
    ∧ (MockIDGenerator.mk (2 ^ 64 - 1)).NextID.2.NextID.1 = 0
    ∧ ¬ ((MockIDGenerator.mk (2 ^ 64 - 1)).NextID.1
          < (MockIDGenerator.mk (2 ^ 64 - 1)).NextID.2.NextID.1) := by
  decide

/-- C8 (amended): in every state of the generator whose 64-bit counter is below its largest
value, two successive `NextID()` calls return `r1` and then `r2 = r1 + 1`, so `r2` is strictly
greater than `r1`. -/
theorem NextID_successive_increasing (m : MockIDGenerator)
    (hm : m.currentID + 1 < 2 ^ 64) :
    m.NextID.1 < m.NextID.2.NextID.1
    ∧ m.NextID.2.NextID.1 = m.NextID.1 + 1
    ∧ m.NextID.2.NextID.1 < 2 ^ 64 := by
  simp only [MockIDGenerator.NextID]
  rw [Nat.mod_eq_of_lt hm]
  omega

/-- C8 (amended) at a concrete input: from counter 41 the two results are 41 and 42. -/
theorem NextID_successive_increasing_witness :
    (MockIDGenerator.mk 41).NextID.1 < (MockIDGenerator.mk 41).NextID.2.NextID.1 :=
  (NextID_successive_increasing (MockIDGenerator.mk 41) (by decide)).1

end IDGenerator

/-! ## The flowchart ID sequence -/

section FlowchartIDs
open flowchart
variable {Base : Type}

/-- C9 (as the claim states it, refuted): on the flowchart reached from `NewFlowchart()` by nine
`AddNode` calls, two `AddSubgraph` calls return the IDs `9` and `10`, and under the string
comparison of the test `subgraph2.ID <= subgraph.ID` holds. -/
theorem flowchart_AddSubgraph_string_order_fails :
    ((((NewFlowchart ()).run (List.replicate 9 (Call.AddNode "n"))).2.AddSubgraph
        "Test Subgraph").1.ID = "9")
    ∧ (((((NewFlowchart ()).run (List.replicate 9 (Call.AddNode "n"))).2.AddSubgraph
        "Test Subgraph").2.AddSubgraph "Second Subgraph").1.ID = "10")
    ∧ stringLessEq
        (((((NewFlowchart ()).run (List.replicate 9 (Call.AddNode "n"))).2.AddSubgraph
          "Test Subgraph").2.AddSubgraph "Second Subgraph").1.ID)
        ((((NewFlowchart ()).run (List.replicate 9 (Call.AddNode "n"))).2.AddSubgraph
          "Test Subgraph").1.ID) = true := by
  decide

/-- C9 (amended): for every flowchart and every two `AddSubgraph` calls on it, with any builder
calls in between, as long as the 64-bit counter does not wrap between them the two IDs are the
decimal strings of the counter values taken, the later one denoting the greater number; under
the string comparison of the test the later ID is greater whenever the two decimal strings have
the same length. -/
theorem flowchart_AddSubgraph_IDs_increase (f : Flowchart Base) (t1 t2 : string)
    (cs : List Call) (hv : f.idGenerator.valid)
    (hno : f.idGenerator.currentID + idCalls cs + 1 < 2 ^ 64) :
    (f.AddSubgraph t1).1.ID = strconv.FormatUint f.idGenerator.currentID
    ∧ (((f.AddSubgraph t1).2.run cs).2.AddSubgraph t2).1.ID
        = strconv.FormatUint (f.idGenerator.currentID + idCalls cs + 1)
    ∧ decimalValue (f.AddSubgraph t1).1.ID
        < decimalValue (((f.AddSubgraph t1).2.run cs).2.AddSubgraph t2).1.ID
    ∧ ((f.AddSubgraph t1).1.ID.length
          = (((f.AddSubgraph t1).2.run cs).2.AddSubgraph t2).1.ID.length →
        stringLessEq (((f.AddSubgraph t1).2.run cs).2.AddSubgraph t2).1.ID
          (f.AddSubgraph t1).1.ID = false) := by
  have h1 : (f.AddSubgraph t1).1.ID = strconv.FormatUint f.idGenerator.currentID := rfl
  have hg : (f.AddSubgraph t1).2.idGenerator = f.idGenerator.NextID.2 := rfl
  have h2 : (((f.AddSubgraph t1).2.run cs).2.AddSubgraph t2).1.ID
      = strconv.FormatUint (f.idGenerator.currentID + idCalls cs + 1) := by
    show strconv.FormatUint ((f.AddSubgraph t1).2.run cs).2.idGenerator.currentID = _
    rw [run_generator cs _ (by rw [hg]; exact NextID_valid _), hg]
    simp only [MockIDGenerator.NextID]
    congr 1
    have hv2 : f.idGenerator.currentID < 2 ^ 64 := hv
    omega
  refine ⟨h1, h2, ?_, ?_⟩
  · rw [h1, h2, decimalValue_FormatUint, decimalValue_FormatUint]
    omega
  · intro hlen
    rw [h1, h2] at hlen ⊢
    simp only [stringLessEq, stringLess, Bool.not_eq_false_eq_eq_true]
    refine stringLessData_of_decimalValue_lt _ _ ?_ (FormatUint_digits _) (FormatUint_digits _) ?_
    · exact hlen
    · have e1 := decimalValue_FormatUint f.idGenerator.currentID
      have e2 := decimalValue_FormatUint (f.idGenerator.currentID + idCalls cs + 1)
      simp only [decimalValue] at e1 e2
      rw [e1, e2]
      omega

/-- C9 (amended) at a concrete input: on a fresh flowchart the two subgraph IDs are `0` and
`1`. -/
theorem flowchart_AddSubgraph_IDs_increase_witness :
    ((NewFlowchart ()).AddSubgraph "Test Subgraph").1.ID = strconv.FormatUint 0
    ∧ ((((NewFlowchart ()).AddSubgraph "Test Subgraph").2.run []).2.AddSubgraph
        "Second Subgraph").1.ID = strconv.FormatUint (0 + idCalls [] + 1) :=
  ⟨(flowchart_AddSubgraph_IDs_increase (NewFlowchart ()) "Test Subgraph" "Second Subgraph" []
      (by decide) (by decide)).1,
   (flowchart_AddSubgraph_IDs_increase (NewFlowchart ()) "Test Subgraph" "Second Subgraph" []
      (by decide) (by decide)).2.1⟩

/-- C10: in a flowchart created by `NewFlowchart()`, nodes and subgraphs draw their IDs from
one shared sequence. For any interleaving of builder calls (the flowchart it builds being one
whose slices Go can hold), every ID-consuming call stores one entity, the `k`-th ID-consuming
call (counting from 0) returns an entity whose ID is the decimal rendering of `k`, and the IDs
stored on the nodes and subgraphs of the flowchart are exactly these, pairwise distinct.
`AddClass` and `AddLink` leave the generator untouched. When the shell returns its header
followed by the body verbatim, a subgraph added after two nodes is emitted as
`subgraph 2 [<title>]`. -/
theorem flowchart_shared_ID_sequence (newBase : Base) (cs : List Call)
    (shell : Base → string → string) (header : Base → string)
    (classString : flowchart.Class → string) (nodeString : Node → string)
    (linkString : Link → string) (a b title : string)
    (hfit : ((NewFlowchart newBase).run cs).2.fitsSlices)
    (hshell : ∀ base body, shell base body = header base ++ body) :
    ((NewFlowchart newBase).run cs).1 = (List.range (idCalls cs)).map strconv.FormatUint
    ∧ ((NewFlowchart newBase).run cs).2.nodes.length
        + ((NewFlowchart newBase).run cs).2.subgraphs.length = idCalls cs
    ∧ (∀ k id, ((NewFlowchart newBase).run cs).1[k]? = some id → id = strconv.FormatUint k)
    ∧ ((NewFlowchart newBase).run cs).1.Nodup
    ∧ ((NewFlowchart newBase).run cs).2.storedIDs.Perm ((NewFlowchart newBase).run cs).1
    ∧ ((NewFlowchart newBase).run cs).2.storedIDs.Nodup
    ∧ (∀ (f : Flowchart Base) (name : string) (src dst : Option Node),
        (f.AddClass name).2.idGenerator = f.idGenerator
        ∧ (f.AddLink src dst).2.idGenerator = f.idGenerator)
    ∧ strings.Contains
        (((((NewFlowchart newBase).AddNode a).2.AddNode b).2.AddSubgraph title).2.String
          shell classString nodeString linkString)
        ("subgraph 2 [" ++ title ++ "]") := by
  have hlen : ((NewFlowchart newBase).run cs).2.nodes.length
      + ((NewFlowchart newBase).run cs).2.subgraphs.length = idCalls cs := by
    have h := (run_storedIDs cs (NewFlowchart newBase)).length_eq
    rw [run_ids cs (NewFlowchart newBase) (NewFlowchart_valid newBase)] at h
    simpa [Flowchart.storedIDs, NewFlowchart] using h
  have hn : idCalls cs ≤ 2 ^ 64 := by
    have h1 := hfit.1
    have h2 := hfit.2
    simp only [maxSliceLen] at h1 h2
    omega
  have hids : ((NewFlowchart newBase).run cs).1
      = (List.range (idCalls cs)).map strconv.FormatUint := by
    rw [run_ids cs (NewFlowchart newBase) (NewFlowchart_valid newBase)]
    apply List.map_congr_left
    intro i hi
    have hi2 : i < idCalls cs := List.mem_range.mp hi
    simp only [NewFlowchart, MockIDGenerator.zero, Nat.zero_add]
    rw [Nat.mod_eq_of_lt (by omega)]
  have hnodup : ((NewFlowchart newBase).run cs).1.Nodup := by
    rw [hids]
    exact (List.nodup_range _).map FormatUint_injective
  have hperm : ((NewFlowchart newBase).run cs).2.storedIDs.Perm
      ((NewFlowchart newBase).run cs).1 := by
    have h := run_storedIDs cs (NewFlowchart newBase)
    simpa [NewFlowchart, Flowchart.storedIDs] using h
  refine ⟨hids, hlen, ?_, hnodup, hperm, hperm.nodup_iff.mpr hnodup,
    fun _ _ _ _ => ⟨rfl, rfl⟩, ?_⟩
  · intro k id hk
    rw [hids, List.getElem?_map] at hk
    cases hr : (List.range (idCalls cs))[k]? with
    | none => rw [hr] at hk; simp at hk
    | some j =>
      rw [hr] at hk
      have hj : j = k := by
        have hlt : k < (List.range (idCalls cs)).length := by
          by_contra hge
          rw [List.getElem?_eq_none (by omega)] at hr
          exact Option.noConfusion hr
        rw [List.getElem?_eq_getElem hlt, List.getElem_range] at hr
        exact (Option.some.inj hr).symm
      rw [hj] at hk
      exact (Option.some.inj hk).symm
  · have h2 : strconv.FormatUint 2 = "2" := by decide
    have hlit : ("subgraph 2 [" : string) = "subgraph " ++ ("2" ++ " [") := by decide
    have hs : ((((NewFlowchart newBase).AddNode a).2.AddNode b).2.AddSubgraph title).2.String
          shell classString nodeString linkString
        = (header newBase ++ ("flowchart TB\n" ++ (nodeString (NewNode 0 a)
            ++ nodeString (NewNode 1 b))))
            ++ (("subgraph 2 [" ++ title ++ "]") ++ "\n") := by
      have hhdr : ("flowchart TB\n" : string) = "flowchart " ++ ("TB" ++ "\n") := by decide
      rw [hlit, hhdr]
      simp only [Flowchart.String, Flowchart.AddSubgraph, Flowchart.AddNode, NewFlowchart,
        MockIDGenerator.NextID, MockIDGenerator.zero, strings.Builder.new,
        strings.Builder.WriteString, strings.Builder.String, Subgraph.String, NewSubgraph,
        flowchartDirection.code, List.foldl_cons, List.foldl_nil, List.nil_append,
        List.singleton_append]
      have e1 : (0 + 1) % 2 ^ 64 = 1 := by decide
      have e2 : (1 + 1) % 2 ^ 64 = 2 := by decide
      simp only [e1, e2, h2, hshell, String.append_assoc, String.empty_append]
    rw [hs]
    exact concatAll_data_append_left _ _ _

/-- C10 at a concrete input: the call sequence of `TestFlowchart_String` (a class,
two nodes, a subgraph, a link) hands out the IDs `0`, `1`, `2`, and the subgraph is emitted as
`subgraph 2 [My Subgraph]`. -/
theorem flowchart_shared_ID_sequence_witness :
    ((NewFlowchart ()).run
        [Call.AddClass "myClass", Call.AddNode "My Node 1", Call.AddNode "My Node 2",
          Call.AddSubgraph "My Subgraph", Call.AddLink none none]).1 = ["0", "1", "2"]
    ∧ strings.Contains
        (((((NewFlowchart ()).AddNode "My Node 1").2.AddNode "My Node 2").2.AddSubgraph
            "My Subgraph").2.String (fun _ body => body) (fun c => c.Name ++ "\n")
          (fun n => n.ID ++ "\n") (fun _ => "\n"))
        ("subgraph 2 [" ++ "My Subgraph" ++ "]") :=
  ⟨(flowchart_shared_ID_sequence ()
      [Call.AddClass "myClass", Call.AddNode "My Node 1", Call.AddNode "My Node 2",
        Call.AddSubgraph "My Subgraph", Call.AddLink none none]
      (fun _ body => body) (fun _ => "") (fun c => c.Name ++ "\n") (fun n => n.ID ++ "\n")
      (fun _ => "\n") "My Node 1" "My Node 2" "My Subgraph" (by decide)
      (fun _ body => (String.empty_append body).symm)).1.trans (by decide),
   (flowchart_shared_ID_sequence ()
      [Call.AddClass "myClass", Call.AddNode "My Node 1", Call.AddNode "My Node 2",
        Call.AddSubgraph "My Subgraph", Call.AddLink none none]
      (fun _ body => body) (fun _ => "") (fun c => c.Name ++ "\n") (fun n => n.ID ++ "\n")
      (fun _ => "\n") "My Node 1" "My Node 2" "My Subgraph" (by decide)
      (fun _ body => (String.empty_append body).symm)).2.2.2.2.2.2.2⟩

end FlowchartIDs

/-! ## Helper lemmas: occurrences in a text -/

theorem Contains_append_left (pre s sub : string) (h : strings.Contains s sub) :
    strings.Contains (pre ++ s) sub := by
  obtain ⟨a, b, hab⟩ := h
  exact ⟨pre.data ++ a, b, by simp [String.data_append, ← hab]⟩

theorem Contains_append_right (s post sub : string) (h : strings.Contains s sub) :
    strings.Contains (s ++ post) sub := by
  obtain ⟨a, b, hab⟩ := h
  exact ⟨a, b ++ post.data, by simp [String.data_append, ← hab]⟩

theorem Contains_refl (s : string) : strings.Contains s s := ⟨[], [], by simp⟩

theorem Contains_middle (pre sub post : string) :
    strings.Contains (pre ++ sub ++ post) sub :=
  Contains_append_right _ _ _ (Contains_append_left _ _ _ (Contains_refl sub))

theorem Contains_concatAll_of_mem {α : Type} (f : α → string) (xs : List α) (x : α)
    (sub : string) (hx : x ∈ xs) (h : strings.Contains (f x) sub) :
    strings.Contains (concatAll (xs.map f)) sub := by
  induction xs with
  | nil => cases hx
  | cons y ys ih =>
    simp only [List.map_cons, concatAll]
    rcases List.mem_cons.mp hx with rfl | hmem
    · exact Contains_append_right _ _ _ h
    · exact Contains_append_left _ _ _ (ih hmem)

theorem block_String_eq_body_aux {Base : Type} (shell : Base → string → string)
    (d : block.Diagram Base) :
    d.String shell
      = shell d.BaseDiagram
          ("block-beta\n" ++ ("columns " ++ strconv.Itoa d.Columns ++ "\n")
            ++ concatAll (d.Blocks.map (fun b => b.String ""))
            ++ concatAll (d.Links.map (fun l => l.String ""))) := by
  unfold block.Diagram.String
  simp only [Builder_foldl_WriteString]
  simp [strings.Builder.String, strings.Builder.WriteString, strings.Builder.new,
    block.baseDiagramType, String.append_assoc]

/-! ## Package `block` -/

section BlockDiagram
open block
variable {Base : Type}

/-- C11: on every block diagram with stored column count `c`, `AddColumn()` leaves the count at
`c + 1` and `RemoveColumn()` leaves it at `c - 1`, with no lower bound (from the count 0 of a
new diagram `RemoveColumn()` gives `-1`); either order of the two restores the count; neither
changes the blocks, the links or the base diagram. -/
theorem block_AddColumn_RemoveColumn (d : Diagram Base) (newBase : Base) :
    d.AddColumn.Columns = d.Columns + 1
    ∧ d.RemoveColumn.Columns = d.Columns - 1
    ∧ (NewDiagram newBase).Columns = 0
    ∧ (NewDiagram newBase).RemoveColumn.Columns = -1
    ∧ d.AddColumn.RemoveColumn.Columns = d.Columns
    ∧ d.RemoveColumn.AddColumn.Columns = d.Columns
    ∧ d.AddColumn.RemoveColumn = d
    ∧ d.RemoveColumn.AddColumn = d
    ∧ d.AddColumn.Blocks = d.Blocks ∧ d.AddColumn.Links = d.Links
    ∧ d.AddColumn.BaseDiagram = d.BaseDiagram
    ∧ d.RemoveColumn.Blocks = d.Blocks ∧ d.RemoveColumn.Links = d.Links
    ∧ d.RemoveColumn.BaseDiagram = d.BaseDiagram := by
  have h1 : d.Columns + 1 - 1 = d.Columns := by omega
  have h2 : d.Columns - 1 + 1 = d.Columns := by omega
  refine ⟨rfl, rfl, rfl, rfl, h1, h2, ?_, ?_, rfl, rfl, rfl, rfl, rfl, rfl⟩
  · cases d
    simp only [Diagram.AddColumn, Diagram.RemoveColumn] at h1 ⊢
    rw [h1]
  · cases d
    simp only [Diagram.AddColumn, Diagram.RemoveColumn] at h2 ⊢
    rw [h2]

/-- C12: for every integer `n`, `SetColumns(n)` stores exactly `n`, whatever the count was, and
leaves blocks and links alone; when the shell returns its header followed by the body
verbatim, `String()` then contains the directive `columns ` followed by the decimal rendering of
`n`, a negative `n` being rendered with its sign (`columns 3` for 3, `columns -2` for -2). -/
theorem block_SetColumns_round_trip (shell : Base → string → string) (header : Base → string)
    (hshell : ∀ base body, shell base body = header base ++ body)
    (d : Diagram Base) (n : Int) :
    (d.SetColumns n).Columns = n
    ∧ (d.SetColumns n).Blocks = d.Blocks ∧ (d.SetColumns n).Links = d.Links
    ∧ strings.Contains ((d.SetColumns n).String shell) ("columns " ++ strconv.Itoa n)
    ∧ strings.Contains ((d.SetColumns 3).String shell) "columns 3"
    ∧ strings.Contains ((d.SetColumns (-2)).String shell) "columns -2" := by
  have key : ∀ m : Int,
      strings.Contains ((d.SetColumns m).String shell) ("columns " ++ strconv.Itoa m) := by
    intro m
    rw [block_String_eq_body_aux, hshell]
    apply Contains_append_left
    apply Contains_append_right
    apply Contains_append_right
    apply Contains_append_left
    exact Contains_append_right _ _ _ (Contains_refl _)
  exact ⟨rfl, rfl, rfl, key n, key 3, key (-2)⟩

/-- C12 at a concrete input: `SetColumns(3)` on a new diagram under the identity shell. -/
theorem block_SetColumns_round_trip_witness :
    strings.Contains (((NewDiagram ()).SetColumns 3).String (fun _ body => body)) "columns 3" :=
  (block_SetColumns_round_trip (fun _ body => body) (fun _ => "")
    (fun _ body => (String.empty_append body).symm) (NewDiagram ()) 3).2.2.2.2.1

/-- C16: on a new block diagram the calls `b1 := AddBlock(a); b2 := AddBlock(b);
AddLink(b1, b2)` give a link from `b1` to `b2`, and, when the shell returns its header followed
by the body verbatim, a `String()` in which the header line, the text of the first block in
brackets and quotes, that of the second block and the arrow occur one after the other in this
order; each of the four is contained in the output. -/
theorem block_two_blocks_linked_order (shell : Base → string → string)
    (header : Base → string) (hshell : ∀ base body, shell base body = header base ++ body)
    (blockID : Nat → string) (newBase : Base) (a b : string) :
    (twoBlocksLinked blockID newBase a b).2.2.1.From
        = some (twoBlocksLinked blockID newBase a b).1
    ∧ (twoBlocksLinked blockID newBase a b).2.2.1.To
        = some (twoBlocksLinked blockID newBase a b).2.1
    ∧ (twoBlocksLinked blockID newBase a b).1.Text = a
    ∧ (twoBlocksLinked blockID newBase a b).2.1.Text = b
    ∧ (twoBlocksLinked blockID newBase a b).2.2.2.Blocks
        = [(twoBlocksLinked blockID newBase a b).1, (twoBlocksLinked blockID newBase a b).2.1]
    ∧ (twoBlocksLinked blockID newBase a b).2.2.2.Links
        = [(twoBlocksLinked blockID newBase a b).2.2.1]
    ∧ occursInOrder ((twoBlocksLinked blockID newBase a b).2.2.2.String shell)
        ["block-beta\n", "[\"" ++ a ++ "\"]", "[\"" ++ b ++ "\"]", "-->"]
    ∧ strings.Contains ((twoBlocksLinked blockID newBase a b).2.2.2.String shell)
        "block-beta\n"
    ∧ strings.Contains ((twoBlocksLinked blockID newBase a b).2.2.2.String shell)
        ("[\"" ++ a ++ "\"]")
    ∧ strings.Contains ((twoBlocksLinked blockID newBase a b).2.2.2.String shell)
        ("[\"" ++ b ++ "\"]")
    ∧ strings.Contains ((twoBlocksLinked blockID newBase a b).2.2.2.String shell) "-->" := by
  have hs : (twoBlocksLinked blockID newBase a b).2.2.2.String shell
      = header newBase ++ "block-beta\n"
        ++ (("columns " ++ strconv.Itoa 0 ++ "\n" ++ blockID 0) ++ ("[\"" ++ a ++ "\"]")
          ++ (("\n" ++ blockID 1) ++ ("[\"" ++ b ++ "\"]")
            ++ (("\n" ++ blockID 0 ++ " ") ++ "-->" ++ (" " ++ blockID 1 ++ "\n")))) := by
    rw [block_String_eq_body_aux, hshell]
    simp only [twoBlocksLinked, Diagram.AddLink, Diagram.AddBlock, NewDiagram, NewBlock,
      NewLink, Block.String, Link.String, handleID, List.nil_append, List.singleton_append,
      List.length_nil, List.length_singleton, List.map_cons, List.map_nil, concatAll,
      String.append_assoc, String.empty_append, String.append_empty]
  refine ⟨rfl, rfl, rfl, rfl, rfl, rfl, ?_, ?_, ?_, ?_, ?_⟩
  · rw [hs]
    exact ⟨_, _, rfl, _, _, rfl, _, _, rfl, _, _, rfl, trivial⟩
  · rw [hs]
    exact Contains_middle _ _ _
  · rw [hs]
    refine Contains_append_left _ _ _ (Contains_append_right _ _ _ ?_)
    exact Contains_append_left _ _ _ (Contains_refl _)
  · rw [hs]
    refine Contains_append_left _ _ _ (Contains_append_left _ _ _ ?_)
    exact Contains_append_right _ _ _ (Contains_append_left _ _ _ (Contains_refl _))
  · rw [hs]
    refine Contains_append_left _ _ _ (Contains_append_left _ _ _ ?_)
    exact Contains_append_left _ _ _ (Contains_middle _ _ _)

/-- C16 at a concrete input: the blocks `Start` and `End` of `TestDiagram_String`, ids taken
from the insertion position, under the identity shell. -/
theorem block_two_blocks_linked_order_witness :
    occursInOrder
      ((twoBlocksLinked (fun i => strconv.FormatUint i) () "Start" "End").2.2.2.String
        (fun _ body => body))
      ["block-beta\n", "[\"" ++ "Start" ++ "\"]", "[\"" ++ "End" ++ "\"]", "-->"] :=
  (block_two_blocks_linked_order (fun _ body => body) (fun _ => "")
    (fun _ body => (String.empty_append body).symm) (fun i => strconv.FormatUint i) ()
    "Start" "End").2.2.2.2.2.2.1

end BlockDiagram

/-! ## Package `flowchart`: links and nodes -/

theorem flowchart_String_eq_body_aux {Base : Type} (shell : Base → string → string)
    (classString : flowchart.Class → string) (nodeString : flowchart.Node → string)
    (linkString : flowchart.Link → string) (f : flowchart.Flowchart Base) :
    f.String shell classString nodeString linkString
      = shell f.BaseDiagram
          ("flowchart " ++ f.Direction.code ++ "\n"
            ++ concatAll (f.classes.map classString)
            ++ concatAll (f.nodes.map nodeString)
            ++ concatAll (f.subgraphs.map (fun g => g.String ""))
            ++ concatAll (f.links.map linkString)) := by
  unfold flowchart.Flowchart.String
  simp only [Builder_foldl_WriteString]
  simp [strings.Builder.String, strings.Builder.WriteString, strings.Builder.new,
    String.append_assoc]

section FlowchartEntities
open flowchart
variable {Base : Type}

/-- C13: each setter of a flowchart link sets exactly one field and returns the link: `SetText`
sets `Text`, `SetShape` sets `Shape`, `SetLength` sets `Length`, `SetHead` sets `Head`, `SetTail`
sets `Tail`, and every other field, `From` and `To` included, keeps its value; in particular
`SetHead` leaves `Tail` alone and `SetTail` leaves `Head` alone. -/
theorem flowchart_Link_setters_frame (l : Link) (text : string) (shape : linkShape)
    (length : Int) (head tail : linkArrowType) :
    (l.SetText text).Text = text
    ∧ (l.SetText text).From = l.From
    ∧ (l.SetText text).To = l.To
    ∧ (l.SetText text).Shape = l.Shape
    ∧ (l.SetText text).Head = l.Head
    ∧ (l.SetText text).Tail = l.Tail
    ∧ (l.SetText text).Length = l.Length
    ∧ (l.SetShape shape).Shape = shape
    ∧ (l.SetShape shape).From = l.From
    ∧ (l.SetShape shape).To = l.To
    ∧ (l.SetShape shape).Head = l.Head
    ∧ (l.SetShape shape).Tail = l.Tail
    ∧ (l.SetShape shape).Length = l.Length
    ∧ (l.SetShape shape).Text = l.Text
    ∧ (l.SetLength length).Length = length
    ∧ (l.SetLength length).From = l.From
    ∧ (l.SetLength length).To = l.To
    ∧ (l.SetLength length).Shape = l.Shape
    ∧ (l.SetLength length).Head = l.Head
    ∧ (l.SetLength length).Tail = l.Tail
    ∧ (l.SetLength length).Text = l.Text
    ∧ (l.SetHead head).Head = head
    ∧ (l.SetHead head).From = l.From
    ∧ (l.SetHead head).To = l.To
    ∧ (l.SetHead head).Shape = l.Shape
    ∧ (l.SetHead head).Tail = l.Tail
    ∧ (l.SetHead head).Length = l.Length
    ∧ (l.SetHead head).Text = l.Text
    ∧ (l.SetTail tail).Tail = tail
    ∧ (l.SetTail tail).From = l.From
    ∧ (l.SetTail tail).To = l.To
    ∧ (l.SetTail tail).Shape = l.Shape
    ∧ (l.SetTail tail).Head = l.Head
    ∧ (l.SetTail tail).Length = l.Length
    ∧ (l.SetTail tail).Text = l.Text :=
  ⟨rfl, rfl, rfl, rfl, rfl, rfl, rfl, rfl, rfl, rfl, rfl, rfl, rfl, rfl, rfl, rfl, rfl, rfl,
    rfl, rfl, rfl, rfl, rfl, rfl, rfl, rfl, rfl, rfl, rfl, rfl, rfl, rfl, rfl, rfl, rfl⟩

/-- C14: on a new flowchart `AddNode(a)` returns the node with ID `0`, text `a` and the process
shape, `AddNode(b)` the node with ID `1`, and `AddLink(n1, n2)` a link from `n1` to `n2` with
shape open, head arrow, tail none, length 0 and no text; when the shell returns its header
followed by the body verbatim, `String()` then contains `flowchart TB`, the two node
declarations with shape `rect` and the labels `a` and `b`, and the link line `0 --> 1`. -/
theorem flowchart_defaults_rendering (shell : Base → string → string)
    (header : Base → string) (hshell : ∀ base body, shell base body = header base ++ body)
    (classString : flowchart.Class → string) (arrow : Link → string)
    (nodeIndent linkIndent : string) (newBase : Base) (a b : string) :
    (twoNodesLinked newBase a b).1 = { ID := "0", Text := a, Shape := NodeShapeProcess }
    ∧ (twoNodesLinked newBase a b).2.1 = { ID := "1", Text := b, Shape := NodeShapeProcess }
    ∧ (twoNodesLinked newBase a b).2.2.1
        = { From := some (twoNodesLinked newBase a b).1,
            To := some (twoNodesLinked newBase a b).2.1,
            Shape := linkShape.LinkShapeOpen, Head := linkArrowType.LinkArrowTypeArrow,
            Tail := linkArrowType.LinkArrowTypeNone, Length := 0, Text := "" }
    ∧ strings.Contains
        ((twoNodesLinked newBase a b).2.2.2.String shell classString
          (fun n => n.String nodeIndent) (fun l => l.String arrow linkIndent))
        "flowchart TB"
    ∧ strings.Contains
        ((twoNodesLinked newBase a b).2.2.2.String shell classString
          (fun n => n.String nodeIndent) (fun l => l.String arrow linkIndent))
        ("0@\x7b shape: rect, label: \"" ++ a ++ "\"\x7d")
    ∧ strings.Contains
        ((twoNodesLinked newBase a b).2.2.2.String shell classString
          (fun n => n.String nodeIndent) (fun l => l.String arrow linkIndent))
        ("1@\x7b shape: rect, label: \"" ++ b ++ "\"\x7d")
    ∧ strings.Contains
        ((twoNodesLinked newBase a b).2.2.2.String shell classString
          (fun n => n.String nodeIndent) (fun l => l.String arrow linkIndent))
        "0 --> 1" := by
  have h0 : strconv.FormatUint 0 = "0" := by decide
  have h1 : strconv.FormatUint 1 = "1" := by decide
  have e1 : (0 + 1) % 2 ^ 64 = 1 := by decide
  have hn1 : (twoNodesLinked newBase a b).1
      = { ID := "0", Text := a, Shape := NodeShapeProcess } := by
    simp only [twoNodesLinked, Flowchart.AddNode, NewFlowchart, NewNode,
      MockIDGenerator.NextID, MockIDGenerator.zero, h0]
  have hn2 : (twoNodesLinked newBase a b).2.1
      = { ID := "1", Text := b, Shape := NodeShapeProcess } := by
    simp only [twoNodesLinked, Flowchart.AddNode, NewFlowchart, NewNode,
      MockIDGenerator.NextID, MockIDGenerator.zero, e1, h1]
  have hl : (twoNodesLinked newBase a b).2.2.1
      = { From := some (twoNodesLinked newBase a b).1,
          To := some (twoNodesLinked newBase a b).2.1,
          Shape := linkShape.LinkShapeOpen, Head := linkArrowType.LinkArrowTypeArrow,
          Tail := linkArrowType.LinkArrowTypeNone, Length := 0, Text := "" } := rfl
  have hA : ("0@\x7b shape: rect, label: \"" : string)
      = "0" ++ ("@\x7b shape: " ++ ("rect" ++ ", label: \"")) := by decide
  have hB : ("1@\x7b shape: rect, label: \"" : string)
      = "1" ++ ("@\x7b shape: " ++ ("rect" ++ ", label: \"")) := by decide
  have hF : ("flowchart TB" : string) = "flowchart " ++ "TB" := by decide
  have hL : ("0 --> 1" : string) = "0" ++ (" " ++ ("-->" ++ (" " ++ "1"))) := by decide
  have hs : (twoNodesLinked newBase a b).2.2.2.String shell classString
        (fun n => n.String nodeIndent) (fun l => l.String arrow linkIndent)
      = header newBase ++ ("flowchart TB" ++ (("\n" ++ nodeIndent)
          ++ (("0@\x7b shape: rect, label: \"" ++ a ++ "\"\x7d") ++ (("\n" ++ nodeIndent)
            ++ (("1@\x7b shape: rect, label: \"" ++ b ++ "\"\x7d") ++ (("\n" ++ linkIndent)
              ++ ("0 --> 1" ++ "\n"))))))) := by
    rw [flowchart_String_eq_body_aux, hshell, hA, hB, hF, hL]
    simp only [twoNodesLinked, Flowchart.AddLink, Flowchart.AddNode, NewFlowchart, NewNode,
      NewLink, Node.String, Link.String, Link.isDefault, flowchart.handleID,
      NodeShapeProcess, MockIDGenerator.NextID, MockIDGenerator.zero, flowchartDirection.code,
      e1, h0, h1, List.nil_append, List.singleton_append, List.map_cons, List.map_nil,
      concatAll, decide_True, Bool.and_self, if_true, String.append_assoc,
      String.empty_append, String.append_empty]
  refine ⟨hn1, hn2, hl, ?_, ?_, ?_, ?_⟩
  · rw [hs]
    exact Contains_append_left _ _ _ (Contains_append_right _ _ _ (Contains_refl _))
  · rw [hs]
    refine Contains_append_left _ _ _ (Contains_append_left _ _ _ ?_)
    exact Contains_append_left _ _ _ (Contains_append_right _ _ _ (Contains_refl _))
  · rw [hs]
    refine Contains_append_left _ _ _ (Contains_append_left _ _ _ ?_)
    refine Contains_append_left _ _ _ (Contains_append_left _ _ _ ?_)
    exact Contains_append_left _ _ _ (Contains_append_right _ _ _ (Contains_refl _))
  · rw [hs]
    refine Contains_append_left _ _ _ (Contains_append_left _ _ _ ?_)
    refine Contains_append_left _ _ _ (Contains_append_left _ _ _ ?_)
    refine Contains_append_left _ _ _ (Contains_append_left _ _ _ ?_)
    exact Contains_append_left _ _ _ (Contains_append_right _ _ _ (Contains_refl _))

/-- C14 at a concrete input: the nodes `My Node 1` and `My Node 2` of `TestFlowchart_String`
under the identity shell. -/
theorem flowchart_defaults_rendering_witness :
    strings.Contains
      ((twoNodesLinked () "My Node 1" "My Node 2").2.2.2.String (fun _ body => body)
        (fun c => c.Name ++ "\n") (fun n => n.String "") (fun l => l.String (fun _ => "---") ""))
      "0 --> 1" :=
  (flowchart_defaults_rendering (fun _ body => body) (fun _ => "")
    (fun _ body => (String.empty_append body).symm) (fun c => c.Name ++ "\n")
    (fun _ => "---") "" "" () "My Node 1" "My Node 2").2.2.2.2.2.2

/-- C15 (as the claim states it, refuted): the node `My Node 1` of `TestFlowchart_String` is
emitted as the declaration the test expects, with the closing brace directly after the closing
quote of the label; the pattern with a space between the two does not occur in the output. -/
theorem flowchart_node_pattern_has_no_space :
    (NewNode 0 "My Node 1").String "" = "0@\x7b shape: rect, label: \"My Node 1\"\x7d\n"
    ∧ strings.Contains
        (((NewFlowchart ()).AddNode "My Node 1").2.String (fun _ body => body)
          (fun c => c.Name ++ "\n") (fun n => n.String "") (fun l => l.String (fun _ => "") ""))
        "0@\x7b shape: rect, label: \"My Node 1\"\x7d"
    ∧ ¬ strings.Contains
        (((NewFlowchart ()).AddNode "My Node 1").2.String (fun _ body => body)
          (fun c => c.Name ++ "\n") (fun n => n.String "") (fun l => l.String (fun _ => "") ""))
        "0@\x7b shape: rect, label: \"My Node 1\" \x7d" := by
  decide

/-- C15 (amended): every node of a flowchart is emitted in the pattern
`<id>@{ shape: <shape>, label: "<text>"}`, the closing brace directly after the closing quote of
the label: the line of a node is the indentation, this declaration and a newline, and, when the
shell returns its header followed by the body verbatim, the output of `String()` contains the
declaration of every node of the flowchart, for every id, shape and text. -/
theorem flowchart_node_pattern (shell : Base → string → string) (header : Base → string)
    (hshell : ∀ base body, shell base body = header base ++ body)
    (classString : flowchart.Class → string) (linkString : Link → string)
    (indent : string) (f : Flowchart Base) (n : Node) (hn : n ∈ f.nodes) :
    n.String indent
        = indent ++ (n.ID ++ "@\x7b shape: " ++ n.Shape ++ ", label: \"" ++ n.Text ++ "\"\x7d")
          ++ "\n"
    ∧ strings.Contains
        (f.String shell classString (fun m => m.String indent) linkString)
        (n.ID ++ "@\x7b shape: " ++ n.Shape ++ ", label: \"" ++ n.Text ++ "\"\x7d") := by
  have hline : n.String indent
      = indent ++ (n.ID ++ "@\x7b shape: " ++ n.Shape ++ ", label: \"" ++ n.Text ++ "\"\x7d")
        ++ "\n" := by
    simp only [Node.String, String.append_assoc]
  refine ⟨hline, ?_⟩
  rw [flowchart_String_eq_body_aux, hshell]
  apply Contains_append_left
  apply Contains_append_right
  apply Contains_append_right
  apply Contains_append_left
  refine Contains_concatAll_of_mem (fun m => m.String indent) f.nodes n _ hn ?_
  show strings.Contains (n.String indent) _
  rw [hline]
  exact Contains_middle _ _ _

/-- C15 (amended) at a concrete input: a flowchart holding one node with a shape and a text of
its own, under the identity shell. -/
theorem flowchart_node_pattern_witness :
    strings.Contains
      (({ (NewFlowchart ()) with nodes := [{ ID := "7", Text := "Go", Shape := "circle" }] } :
          Flowchart Unit).String (fun _ body => body) (fun c => c.Name ++ "\n")
        (fun m => m.String "\t") (fun _ => ""))
      ("7" ++ "@\x7b shape: " ++ "circle" ++ ", label: \"" ++ "Go" ++ "\"\x7d") :=
  (flowchart_node_pattern (fun _ body => body) (fun _ => "")
    (fun _ body => (String.empty_append body).symm) (fun c => c.Name ++ "\n") (fun _ => "")
    "\t" { (NewFlowchart ()) with nodes := [{ ID := "7", Text := "Go", Shape := "circle" }] }
    { ID := "7", Text := "Go", Shape := "circle" } (by simp)).2

end FlowchartEntities

/-! ## Package `state`: call sequences -/

theorem state_body_eq_aux {Base State Transition : Type}
    (stateString : State → string → string)
    (transitionString : Transition → string → string)
    (d : state.Diagram Base State Transition) :
    d.body stateString transitionString
      = "stateDiagram-v2\n"
          ++ concatAll (d.States.map (fun s => stateString s ""))
          ++ concatAll (d.Transitions.map (fun t => transitionString t "")) := by
  unfold state.Diagram.body
  simp only [Builder_foldl_WriteString]
  simp [strings.Builder.String, strings.Builder.WriteString, strings.Builder.new,
    state.baseDiagramType]

theorem StringM_eq_aux {Base State Transition : Type}
    (shellM : Base → string → string × Base)
    (stateStringM : State → string → string × State)
    (transitionStringM : Transition → string → string × Transition)
    (hshell : ∀ b body, (shellM b body).2 = b)
    (hstate : ∀ s indent, (stateStringM s indent).2 = s)
    (htransition : ∀ t indent, (transitionStringM t indent).2 = t)
    (d : state.Diagram Base State Transition) :
    d.StringM shellM stateStringM transitionStringM
      = (d.String (fun b body => (shellM b body).1) (fun s indent => (stateStringM s indent).1)
            (fun t indent => (transitionStringM t indent).1), d) := by
  unfold state.Diagram.StringM state.Diagram.String
  simp only [StringM_loop stateStringM hstate, StringM_loop transitionStringM htransition,
    hshell, List.nil_append]

theorem addStateCalls_append {State StateType : Type}
    (cs1 cs2 : List (state.Call State StateType)) :
    state.addStateCalls (cs1 ++ cs2) = state.addStateCalls cs1 ++ state.addStateCalls cs2 := by
  induction cs1 with
  | nil => rfl
  | cons c cs ih => cases c <;> simp [state.addStateCalls, ih]

theorem addTransitionCalls_append {State StateType : Type}
    (cs1 cs2 : List (state.Call State StateType)) :
    state.addTransitionCalls (cs1 ++ cs2)
      = state.addTransitionCalls cs1 ++ state.addTransitionCalls cs2 := by
  induction cs1 with
  | nil => rfl
  | cons c cs ih => cases c <;> simp [state.addTransitionCalls, ih]

theorem state_run_eq_aux {Base State Transition StateType : Type}
    (NewState : string → string → StateType → State)
    (NewTransition : State → State → string → Transition)
    (shellM : Base → string → string × Base)
    (stateStringM : State → string → string × State)
    (transitionStringM : Transition → string → string × Transition)
    (hshell : ∀ b body, (shellM b body).2 = b)
    (hstate : ∀ s indent, (stateStringM s indent).2 = s)
    (htransition : ∀ t indent, (transitionStringM t indent).2 = t)
    (cs : List (state.Call State StateType)) (d : state.Diagram Base State Transition) :
    d.run NewState NewTransition shellM stateStringM transitionStringM cs
      = { BaseDiagram := d.BaseDiagram,
          States := d.States
            ++ (state.addStateCalls cs).map (fun c => NewState c.1 c.2.1 c.2.2),
          Transitions := d.Transitions
            ++ (state.addTransitionCalls cs).map (fun c => NewTransition c.1 c.2.1 c.2.2) } := by
  induction cs generalizing d with
  | nil => simp [state.Diagram.run, state.addStateCalls, state.addTransitionCalls]
  | cons c cs ih =>
    have hcons : d.run NewState NewTransition shellM stateStringM transitionStringM (c :: cs)
        = (d.call NewState NewTransition shellM stateStringM transitionStringM c).run
            NewState NewTransition shellM stateStringM transitionStringM cs := rfl
    rw [hcons, ih]
    cases c with
    | AddState id description stateType =>
      simp [state.Diagram.call, state.Diagram.AddState, state.addStateCalls,
        state.addTransitionCalls]
    | AddTransition src dst description =>
      simp [state.Diagram.call, state.Diagram.AddTransition, state.addStateCalls,
        state.addTransitionCalls]
    | String =>
      simp [state.Diagram.call, state.addStateCalls, state.addTransitionCalls,
        StringM_eq_aux shellM stateStringM transitionStringM hshell hstate htransition]

section StateCallSequences
open state
variable {Base State Transition StateType : Type}

/-- C17: entities are never removed or reordered. A new diagram has no states and no
transitions; along any sequence of `AddState`, `AddTransition` and `String` calls from it
(the callees of `String` leaving their receivers unchanged) the `States` after an earlier part
of the sequence is an initial segment of the `States` after the whole, likewise for
`Transitions`, and the two lengths are the numbers of `AddState` and `AddTransition` calls made
so far. -/
theorem state_entities_only_appended
    (NewState : string → string → StateType → State)
    (NewTransition : State → State → string → Transition)
    (shellM : Base → string → string × Base)
    (stateStringM : State → string → string × State)
    (transitionStringM : Transition → string → string × Transition)
    (hshell : ∀ b body, (shellM b body).2 = b)
    (hstate : ∀ s indent, (stateStringM s indent).2 = s)
    (htransition : ∀ t indent, (transitionStringM t indent).2 = t)
    (newBase : Base) (earlier later : List (Call State StateType)) :
    (NewDiagram newBase : Diagram Base State Transition).States = []
    ∧ (NewDiagram newBase : Diagram Base State Transition).Transitions = []
    ∧ ((NewDiagram newBase : Diagram Base State Transition).run NewState NewTransition
          shellM stateStringM transitionStringM earlier).States
        <+: ((NewDiagram newBase : Diagram Base State Transition).run NewState NewTransition
          shellM stateStringM transitionStringM (earlier ++ later)).States
    ∧ ((NewDiagram newBase : Diagram Base State Transition).run NewState NewTransition
          shellM stateStringM transitionStringM earlier).Transitions
        <+: ((NewDiagram newBase : Diagram Base State Transition).run NewState NewTransition
          shellM stateStringM transitionStringM (earlier ++ later)).Transitions
    ∧ ((NewDiagram newBase : Diagram Base State Transition).run NewState NewTransition
          shellM stateStringM transitionStringM earlier).States.length
        = (addStateCalls earlier).length
    ∧ ((NewDiagram newBase : Diagram Base State Transition).run NewState NewTransition
          shellM stateStringM transitionStringM earlier).Transitions.length
        = (addTransitionCalls earlier).length := by
  simp only [state_run_eq_aux NewState NewTransition shellM stateStringM transitionStringM
    hshell hstate htransition, addStateCalls_append, addTransitionCalls_append,
    List.map_append]
  refine ⟨rfl, rfl, ?_, ?_, ?_, ?_⟩
  · exact ⟨_, (List.append_assoc _ _ _)⟩
  · exact ⟨_, (List.append_assoc _ _ _)⟩
  · simp [NewDiagram]
  · simp [NewDiagram]

/-- C17 at a concrete input: one `AddState`, then a `String` call, a transition and a second
state; the one state held after the first call is the first of the two held at the end. -/
theorem state_entities_only_appended_witness :
    ((NewDiagram () : Diagram Unit string string).run
        (fun id description (_ : Nat) => id ++ ":" ++ description)
        (fun src dst description => src ++ " --> " ++ dst ++ ": " ++ description)
        (fun b body => (body, b)) (fun s indent => (indent ++ s ++ "\n", s))
        (fun t indent => (indent ++ t ++ "\n", t))
        [Call.AddState "a" "A" 0]).States
      <+: ((NewDiagram () : Diagram Unit string string).run
        (fun id description (_ : Nat) => id ++ ":" ++ description)
        (fun src dst description => src ++ " --> " ++ dst ++ ": " ++ description)
        (fun b body => (body, b)) (fun s indent => (indent ++ s ++ "\n", s))
        (fun t indent => (indent ++ t ++ "\n", t))
        ([Call.AddState "a" "A" 0]
          ++ [Call.String, Call.AddTransition "a:A" "b:B" "go", Call.AddState "b" "B" 1])).States :=
  (state_entities_only_appended
    (fun id description (_ : Nat) => id ++ ":" ++ description)
    (fun src dst description => src ++ " --> " ++ dst ++ ": " ++ description)
    (fun b body => (body, b)) (fun s indent => (indent ++ s ++ "\n", s))
    (fun t indent => (indent ++ t ++ "\n", t))
    (fun _ _ => rfl) (fun _ _ => rfl) (fun _ _ => rfl) ()
    [Call.AddState "a" "A" 0]
    [Call.String, Call.AddTransition "a:A" "b:B" "go", Call.AddState "b" "B" 1]).2.2.1

/-- C18: emission is grouped by kind, not by call order. After any call sequence on a new
diagram (the callees of `String` leaving their receivers unchanged) `String()` returns the
shell applied to the header line, then the fragments of all states in the order of the
`AddState` calls, then the fragments of all transitions in the order of the `AddTransition`
calls, wherever the calls stood in the sequence; so two call sequences with the same `AddState`
calls and the same `AddTransition` calls, interleaved differently, give the same output. -/
theorem state_emission_grouped_by_kind
    (NewState : string → string → StateType → State)
    (NewTransition : State → State → string → Transition)
    (shellM : Base → string → string × Base)
    (stateStringM : State → string → string × State)
    (transitionStringM : Transition → string → string × Transition)
    (hshell : ∀ b body, (shellM b body).2 = b)
    (hstate : ∀ s indent, (stateStringM s indent).2 = s)
    (htransition : ∀ t indent, (transitionStringM t indent).2 = t)
    (newBase : Base) (cs1 cs2 : List (Call State StateType)) :
    (((NewDiagram newBase : Diagram Base State Transition).run NewState NewTransition
          shellM stateStringM transitionStringM cs1).StringM
        shellM stateStringM transitionStringM).1
      = (shellM newBase
          ("stateDiagram-v2\n"
            ++ concatAll ((addStateCalls cs1).map
                (fun c => (stateStringM (NewState c.1 c.2.1 c.2.2) "").1))
            ++ concatAll ((addTransitionCalls cs1).map
                (fun c => (transitionStringM (NewTransition c.1 c.2.1 c.2.2) "").1)))).1
    ∧ (addStateCalls cs1 = addStateCalls cs2 →
        addTransitionCalls cs1 = addTransitionCalls cs2 →
        (((NewDiagram newBase : Diagram Base State Transition).run NewState NewTransition
            shellM stateStringM transitionStringM cs1).StringM
          shellM stateStringM transitionStringM).1
        = (((NewDiagram newBase : Diagram Base State Transition).run NewState NewTransition
            shellM stateStringM transitionStringM cs2).StringM
          shellM stateStringM transitionStringM).1) := by
  have key : ∀ cs : List (Call State StateType),
      (((NewDiagram newBase : Diagram Base State Transition).run NewState NewTransition
          shellM stateStringM transitionStringM cs).StringM
        shellM stateStringM transitionStringM).1
      = (shellM newBase
          ("stateDiagram-v2\n"
            ++ concatAll ((addStateCalls cs).map
                (fun c => (stateStringM (NewState c.1 c.2.1 c.2.2) "").1))
            ++ concatAll ((addTransitionCalls cs).map
                (fun c => (transitionStringM (NewTransition c.1 c.2.1 c.2.2) "").1)))).1 := by
    intro cs
    rw [StringM_eq_aux shellM stateStringM transitionStringM hshell hstate htransition,
      state_String_eq_body_aux,
      state_run_eq_aux NewState NewTransition shellM stateStringM transitionStringM
        hshell hstate htransition]
    simp [NewDiagram, List.map_map, Function.comp_def]
  refine ⟨key cs1, ?_⟩
  intro h1 h2
  rw [key cs1, key cs2, h1, h2]

/-- C18 at a concrete input: a transition added before the state it leaves from and a state
added before that transition give the same text, the state line first. -/
theorem state_emission_grouped_by_kind_witness :
    (((NewDiagram () : Diagram Unit string string).run
        (fun id description (_ : Nat) => id ++ ":" ++ description)
        (fun src dst description => src ++ " --> " ++ dst ++ ": " ++ description)
        (fun b body => (body, b)) (fun s indent => (indent ++ s ++ "\n", s))
        (fun t indent => (indent ++ t ++ "\n", t))
        [Call.AddTransition "a" "b" "go", Call.AddState "a" "A" 0]).StringM
      (fun b body => (body, b)) (fun s indent => (indent ++ s ++ "\n", s))
      (fun t indent => (indent ++ t ++ "\n", t))).1
    = (((NewDiagram () : Diagram Unit string string).run
        (fun id description (_ : Nat) => id ++ ":" ++ description)
        (fun src dst description => src ++ " --> " ++ dst ++ ": " ++ description)
        (fun b body => (body, b)) (fun s indent => (indent ++ s ++ "\n", s))
        (fun t indent => (indent ++ t ++ "\n", t))
        [Call.AddState "a" "A" 0, Call.AddTransition "a" "b" "go"]).StringM
      (fun b body => (body, b)) (fun s indent => (indent ++ s ++ "\n", s))
      (fun t indent => (indent ++ t ++ "\n", t))).1 :=
  (state_emission_grouped_by_kind
    (fun id description (_ : Nat) => id ++ ":" ++ description)
    (fun src dst description => src ++ " --> " ++ dst ++ ": " ++ description)
    (fun b body => (body, b)) (fun s indent => (indent ++ s ++ "\n", s))
    (fun t indent => (indent ++ t ++ "\n", t))
    (fun _ _ => rfl) (fun _ _ => rfl) (fun _ _ => rfl) ()
    [Call.AddTransition "a" "b" "go", Call.AddState "a" "A" 0]
    [Call.AddState "a" "A" 0, Call.AddTransition "a" "b" "go"]).2 rfl rfl

/-- C19: rendering is incremental for the body, the text `String()` hands to the shell. After
`AddTransition` yielding `t` the body is the old body followed by `t.String("")`. After
`AddState` yielding `s` the body is the old body followed by `s.String("")` when the diagram
has no transitions; in general the old body is the header line, the state fragments `S` and the
transition fragments `T`, and the new body is the header line, `S`, then `s.String("")`, then
`T`: the new fragment stands after the last state fragment and before the first transition
fragment, the rest of the text unchanged and in the same order. -/
theorem state_body_incremental (shell : Base → string → string)
    (NewState : string → string → StateType → State)
    (NewTransition : State → State → string → Transition)
    (stateString : State → string → string)
    (transitionString : Transition → string → string)
    (d : Diagram Base State Transition) (id description : string) (stateType : StateType)
    (src dst : State) (label : string) :
    d.String shell stateString transitionString
        = shell d.BaseDiagram (d.body stateString transitionString)
    ∧ (d.AddTransition NewTransition src dst label).2.body stateString transitionString
        = d.body stateString transitionString
          ++ transitionString (d.AddTransition NewTransition src dst label).1 ""
    ∧ (d.Transitions = [] →
        (d.AddState NewState id description stateType).2.body stateString transitionString
          = d.body stateString transitionString
            ++ stateString (d.AddState NewState id description stateType).1 "")
    ∧ d.body stateString transitionString
        = "stateDiagram-v2\n" ++ concatAll (d.States.map (fun s => stateString s ""))
          ++ concatAll (d.Transitions.map (fun t => transitionString t ""))
    ∧ (d.AddState NewState id description stateType).2.body stateString transitionString
        = "stateDiagram-v2\n" ++ concatAll (d.States.map (fun s => stateString s ""))
          ++ stateString (d.AddState NewState id description stateType).1 ""
          ++ concatAll (d.Transitions.map (fun t => transitionString t "")) := by
  refine ⟨rfl, ?_, ?_, state_body_eq_aux _ _ d, ?_⟩
  · rw [state_body_eq_aux, state_body_eq_aux]
    simp [Diagram.AddTransition, concatAll_append, concatAll, String.append_assoc]
  · intro hT
    rw [state_body_eq_aux, state_body_eq_aux, hT]
    simp [Diagram.AddState, hT, concatAll_append, concatAll, String.append_assoc]
  · rw [state_body_eq_aux]
    simp [Diagram.AddState, concatAll_append, concatAll, String.append_assoc]

end StateCallSequences

end Mermaid
